import Mathlib

/-!
Shallow embedding of the SmartUI decision / user-analysis core:
`src/core/smartui_user_analyzer.py`, `src/core/enhanced_decision_engine.py`
and `src/core/decision_engine.py`.

Python floats are modelled as rationals (the source only ever combines
literals with `+ - * / min max`, so exact arithmetic is faithful up to
floating-point rounding), `datetime` timestamps as integers counting
milliseconds, dictionaries as insertion-ordered association lists, and
exceptions as `Except String`.
-/

deriving instance DecidableEq for Except

/-- First-match read of an insertion-ordered association list (Python `d[k]` / `d.get(k)`). -/
def lookupAssoc {κ α : Type} [DecidableEq κ] (l : List (κ × α)) (k : κ) : Option α :=
  match l.find? (fun p => decide (p.1 = k)) with
  | some p => some p.2
  | none => none

/-- `d.get(k, dflt)`. -/
def lookupD {κ α : Type} [DecidableEq κ] (l : List (κ × α)) (k : κ) (d : α) : α :=
  (lookupAssoc l k).getD d

/-- Dict write `d[k] = v`: overwrite in place if the key is present, else append
(Python dicts preserve insertion order). -/
def insertAssoc {κ α : Type} [DecidableEq κ] (l : List (κ × α)) (k : κ) (v : α) :
    List (κ × α) :=
  match l with
  | [] => [(k, v)]
  | p :: t => if p.1 = k then (k, v) :: t else p :: insertAssoc t k v

/-- `collections.defaultdict` style update: modify the entry for `k` if present,
else append `f d` where `d` is the default value. -/
def bumpAssoc {κ α : Type} [DecidableEq κ] (l : List (κ × α)) (k : κ) (f : α → α) (d : α) :
    List (κ × α) :=
  match l with
  | [] => [(k, f d)]
  | p :: t => if p.1 = k then (p.1, f p.2) :: t else p :: bumpAssoc t k f d

/-- Python `max(xs, key=score)`: the first maximal element (`max` only replaces the
current best on a strictly greater key), `none` on the empty list (`ValueError`). -/
def pyMaxBy {α : Type} (score : α → ℚ) : List α → Option α
  | [] => none
  | x :: xs => some (xs.foldl (fun best y => if score y > score best then y else best) x)

/-- `np.mean` over a list of rationals (every caller guards the empty list). -/
def qmean (l : List ℚ) : ℚ := l.sum / l.length

/-- `collections.deque(maxlen=cap).append`: keep only the most recent `cap` items. -/
def dequeAppend {α : Type} (cap : Nat) (buf : List α) (x : α) : List α :=
  let b := buf ++ [x]
  b.drop (b.length - cap)

/-- `datetime.hour` of a millisecond timestamp. -/
def hourOf (t : ℤ) : ℤ := (t / 3600000) % 24

/-- Python substring test `kw in s`. -/
def strContains (s kw : String) : Bool := decide (kw.data.IsInfix s.data)

/-- Stable insertion into a list sorted by `le` (new element goes before the first
strictly-later element, after equal ones seen so far would violate stability, so it
is inserted at the first position where `le x y` holds). -/
def insertSorted {α : Type} (le : α → α → Bool) (x : α) : List α → List α
  | [] => [x]
  | y :: ys => if le x y then x :: y :: ys else y :: insertSorted le x ys

/-- Python `sorted(l, key=...)`: a stable sort, modelled by insertion sort. -/
def stableSort {α : Type} (le : α → α → Bool) (l : List α) : List α :=
  l.foldr (insertSorted le) []

/-- Python `list(set(xs))`: duplicate elimination.  The set iteration order is an
implementation detail of the hash table; it is modelled by keeping the first
occurrence of each element (which is also Python dict key insertion order). -/
def dedupKeepFirst {α : Type} [DecidableEq α] : List α → List α
  | [] => []
  | x :: xs => x :: dedupKeepFirst (xs.filter (fun y => decide (y ≠ x)))
termination_by l => l.length
decreasing_by simp only [List.length_cons]; exact Nat.lt_succ_of_le (List.length_filter_le _ xs)

/-- Python `f"...{opt}..."` rendering of an `Optional[str]`. -/
def optStr : Option String → String
  | none => "None"
  | some s => s

namespace Analyzer

/-- `InteractionType` enum of `smartui_user_analyzer.py` (declaration order matters
for nothing in the source: dict iteration follows first occurrence, not the enum). -/
inductive InteractionType
  | voice | visual | touch | keyboard | mouse | gesture
deriving DecidableEq

/-- The `.value` string of an `InteractionType` member. -/
def InteractionType.value : InteractionType → String
  | .voice => "voice"
  | .visual => "visual"
  | .touch => "touch"
  | .keyboard => "keyboard"
  | .mouse => "mouse"
  | .gesture => "gesture"

/-- Python `InteractionType(s)`, raising `ValueError` on an unknown string. -/
def interactionTypeOf (s : String) : Except String InteractionType :=
  if s = "voice" then .ok .voice
  else if s = "visual" then .ok .visual
  else if s = "touch" then .ok .touch
  else if s = "keyboard" then .ok .keyboard
  else if s = "mouse" then .ok .mouse
  else if s = "gesture" then .ok .gesture
  else .error "ValueError: not a valid InteractionType"

/-- The dynamically-typed `interaction_type` field of an interaction record: the
dataclass performs no validation, so a malformed (non-enum) value can be stored. -/
inductive Modality
  | valid : InteractionType → Modality
  | malformed : String → Modality
deriving DecidableEq

/-- Attribute access `interaction_type.value`: raises `AttributeError` when the field
does not actually hold an enum member. -/
def Modality.valueE : Modality → Except String String
  | .valid t => .ok t.value
  | .malformed _ => .error "AttributeError: no attribute value"

/-- Python `interaction_type == InteractionType.x` (plain `False` for malformed data). -/
def Modality.isType : Modality → InteractionType → Bool
  | .valid t, t' => decide (t = t')
  | .malformed _, _ => false

/-- The `device_info` sub-dictionary read by `_detect_device_adaptation`. -/
structure DeviceInfo where
  type : Option String
  screen_width : Option ℚ
  primary_input : Option String
deriving DecidableEq

/-- The free-form `context` map of an interaction; only `device_info` is ever read. -/
structure InteractionContext where
  device_info : Option DeviceInfo
deriving DecidableEq

/-- `UserInteraction` dataclass. -/
structure UserInteraction where
  interaction_id : String
  user_id : String
  session_id : String
  timestamp : ℤ
  interaction_type : Modality
  element_id : Option String
  element_type : Option String
  action : String
  context : InteractionContext
  success : Bool
  duration : ℚ
  error_message : Option String := none
deriving DecidableEq

/-- The `data` payload of one pattern detector, one constructor per dictionary shape
the five detectors produce (`.empty` is the `{}` fallback payload). -/
inductive DetData
  | empty
  | inputPref (primary_preference : String) (preference_scores : List (String × ℚ))
      (input_distribution : List (String × Nat)) (success_rates : List (String × ℚ))
  | efficiency (success_rate avg_task_duration avg_error_recovery_time learning_trend : ℚ)
      (efficiency_level : String) (total_interactions : Nat) (error_rate : ℚ)
  | errorFree
  | errorInfo (total_errors : Nat) (error_rate : ℚ) (common_error_types : List (String × Nat))
      (problematic_elements : List (String × Nat))
      (error_time_distribution : List (String × Nat)) (error_trend : String)
      (needs_assistance : Bool)
  | accessibility (accessibility_score : ℚ) (indicators : List (String × Nat))
      (recommendations : List String) (needs_accessibility_features : Bool)
  | device (primary_device : String) (device_distribution : List (String × Nat))
      (screen_preference : String) (primary_input_method : String)
      (input_method_distribution : List (String × Nat)) (multi_device_user : Bool)
deriving DecidableEq

/-- A detector result `{'confidence': ..., 'data': ...}`. -/
structure DetOut where
  confidence : ℚ
  data : DetData
deriving DecidableEq

/-- `data.get('efficiency_level', 'intermediate')`. -/
def DetData.get_efficiency_level : DetData → String
  | .efficiency _ _ _ _ lvl _ _ => lvl
  | _ => "intermediate"

/-- `data.get('primary_preference', 'mixed')`. -/
def DetData.get_primary_preference : DetData → String
  | .inputPref p _ _ _ => p
  | _ => "mixed"

/-- `data.get('needs_accessibility_features', False)`. -/
def DetData.get_needs_accessibility_features : DetData → Bool
  | .accessibility _ _ _ b => b
  | _ => false

/-- `data.get('error_rate', 0)`. -/
def DetData.get_error_rate : DetData → ℚ
  | .efficiency _ _ _ _ _ _ er => er
  | .errorInfo _ er _ _ _ _ _ => er
  | _ => 0

/-- `data.get('avg_task_duration', 0)`. -/
def DetData.get_avg_task_duration : DetData → ℚ
  | .efficiency _ d _ _ _ _ _ => d
  | _ => 0

/-- `data.get('recommendations', [])`. -/
def DetData.get_recommendations : DetData → List String
  | .accessibility _ _ r _ => r
  | _ => []

/-- `data.get('multi_device_user', False)`. -/
def DetData.get_multi_device_user : DetData → Bool
  | .device _ _ _ _ _ b => b
  | _ => false

/-- `data.get('screen_preference')` (default `None`). -/
def DetData.get_screen_preference : DetData → Option String
  | .device _ _ sp _ _ _ => some sp
  | _ => none

/-- `data.get('preference_scores', {})`. -/
def DetData.get_preference_scores : DetData → List (String × ℚ)
  | .inputPref _ s _ _ => s
  | _ => []

/-- Configuration of `SmartUIUserAnalyzer.__init__` (defaults from the source:
30-day window, 10-interaction minimum, 0.7 confidence threshold, 15-minute TTL). -/
structure AnalyzerConfig where
  analysis_window : ℤ := 2592000000
  min_interactions_for_analysis : Nat := 10
  confidence_threshold : ℚ := 7/10
  cache_ttl : ℤ := 900000
deriving DecidableEq

/-- Dict comprehension `{k.value: v for k, v in l}` over modality-keyed entries:
raises `AttributeError` if some key is not an actual enum member. -/
def renderKeys {α : Type} (l : List (Modality × α)) : Except String (List (String × α)) :=
  l.mapM (fun p =>
    match p.1.valueE with
    | .ok v => .ok (v, p.2)
    | .error e => .error e)

/-- `UserProfile` dataclass.  The `Dict[str, Any]` fields only ever receive whole
detector-data dictionaries via `.update`, so they are modelled as optional `DetData`. -/
structure UserProfile where
  user_id : String
  created_at : ℤ
  last_updated : ℤ
  device_preferences : Option DetData
  accessibility_needs : Option DetData
  preferred_input_methods : List InteractionType
  interaction_patterns : Option DetData
  efficiency_metrics : Option DetData
  feature_usage : List (String × Nat)
  error_patterns : List (String × Nat)
  ui_preferences : List (String × String)
deriving DecidableEq

/-- `SmartUIUserAnalyzer._detect_input_preference`. -/
def _detect_input_preference (user_id : String) (interactions : List UserInteraction)
    (profile : UserProfile) (context : Option String) (now : ℤ) : Except String DetOut :=
  if interactions.isEmpty then .ok ⟨0, .empty⟩ else
  let input_counts : List (Modality × Nat) :=
    interactions.foldl (fun m i => bumpAssoc m i.interaction_type (· + 1) 0) []
  let success_rates : List (Modality × List ℚ) :=
    interactions.foldl
      (fun m i => bumpAssoc m i.interaction_type (· ++ [if i.success then 1 else 0]) []) []
  let total_interactions : ℚ := interactions.length
  match renderKeys (input_counts.map (fun p =>
      let rates := lookupD success_rates p.1 []
      let success_rate := if rates.isEmpty then 0 else qmean rates
      (p.1, ((p.2 : ℚ) / total_interactions) * success_rate))) with
  | .error e => .error e
  | .ok preference_scores =>
    match renderKeys (success_rates.map (fun p => (p.1, qmean p.2))),
          renderKeys input_counts with
    | .ok rendered_success_rates, .ok input_distribution =>
      match pyMaxBy Prod.snd preference_scores with
      | some best =>
        .ok ⟨best.2, .inputPref best.1 preference_scores input_distribution
              rendered_success_rates⟩
      | none =>
        .ok ⟨1/2, .inputPref "mixed" preference_scores input_distribution
              rendered_success_rates⟩
    | .error e, _ => .error e
    | _, .error e => .error e

/-- `SmartUIUserAnalyzer._calculate_learning_trend`. -/
def _calculate_learning_trend (interactions : List UserInteraction) : ℚ :=
  if interactions.length < 10 then 0 else
  let mid_point := interactions.length / 2
  let early_interactions := interactions.take mid_point
  let recent_interactions := interactions.drop mid_point
  let early_success_rate : ℚ :=
    ((early_interactions.filter (·.success)).length : ℚ) / early_interactions.length
  let recent_success_rate : ℚ :=
    ((recent_interactions.filter (·.success)).length : ℚ) / recent_interactions.length
  let early_durations := (early_interactions.filter (·.success)).map (·.duration)
  let recent_durations := (recent_interactions.filter (·.success)).map (·.duration)
  let early_avg_duration := if early_durations.isEmpty then 0 else qmean early_durations
  let recent_avg_duration := if recent_durations.isEmpty then 0 else qmean recent_durations
  let success_improvement := recent_success_rate - early_success_rate
  let speed_improvement :=
    if early_avg_duration > 0 then (early_avg_duration - recent_avg_duration) / early_avg_duration
    else 0
  let learning_trend := (success_improvement + speed_improvement) / 2
  max (-1) (min 1 learning_trend)

/-- `SmartUIUserAnalyzer._assess_efficiency_level`. -/
def _assess_efficiency_level (success_rate avg_duration learning_trend : ℚ) : String :=
  let efficiency_score :=
    success_rate * (2/5) + (1 - min (avg_duration / 5000) 1) * (3/10) +
      ((learning_trend + 1) / 2) * (3/10)
  if efficiency_score ≥ 4/5 then "expert"
  else if efficiency_score ≥ 3/5 then "proficient"
  else if efficiency_score ≥ 2/5 then "intermediate"
  else "beginner"

/-- `SmartUIUserAnalyzer._detect_efficiency_pattern`.  Timestamps are milliseconds, so
`(t2 - t1).total_seconds() * 1000` is the plain timestamp difference. -/
def _detect_efficiency_pattern (user_id : String) (interactions : List UserInteraction)
    (profile : UserProfile) (context : Option String) (now : ℤ) : Except String DetOut :=
  if interactions.isEmpty then .ok ⟨0, .empty⟩ else
  let total_interactions := interactions.length
  let successful_interactions := (interactions.filter (·.success)).length
  let success_rate : ℚ :=
    if total_interactions > 0 then (successful_interactions : ℚ) / total_interactions else 0
  let task_durations := (interactions.filter (·.success)).map (·.duration)
  let avg_task_duration := if task_durations.isEmpty then 0 else qmean task_durations
  let error_interactions := interactions.filter (fun i => !i.success)
  let error_recovery_times : List ℚ := error_interactions.filterMap (fun e =>
    (interactions.find? (fun j =>
        decide (j.timestamp > e.timestamp) && j.success &&
          decide (j.element_id = e.element_id))).map
      (fun j => ((j.timestamp - e.timestamp : ℤ) : ℚ)))
  let avg_error_recovery_time :=
    if error_recovery_times.isEmpty then 0 else qmean error_recovery_times
  let learning_trend := _calculate_learning_trend interactions
  let efficiency_level := _assess_efficiency_level success_rate avg_task_duration learning_trend
  let confidence : ℚ := if total_interactions ≥ 20 then 4/5 else 1/2
  .ok ⟨confidence, .efficiency success_rate avg_task_duration avg_error_recovery_time
        learning_trend efficiency_level total_interactions (1 - success_rate)⟩

/-- `SmartUIUserAnalyzer._calculate_error_trend`. -/
def _calculate_error_trend (error_interactions : List UserInteraction) (now : ℤ) : String :=
  if error_interactions.length < 5 then "insufficient_data" else
  let sorted_errors :=
    stableSort (fun a b => decide (a.timestamp ≤ b.timestamp)) error_interactions
  let recent_cutoff := now - 604800000
  let recent_errors := sorted_errors.filter (fun e => decide (e.timestamp ≥ recent_cutoff))
  if recent_errors.length = 0 then "improving"
  else if (recent_errors.length : ℚ) > (sorted_errors.length : ℚ) * (1/2) then "worsening"
  else "stable"

/-- `SmartUIUserAnalyzer._detect_error_pattern`.  `if error.error_message:` and
`if error.element_type:` use Python truthiness, so `None` and `""` are both skipped. -/
def _detect_error_pattern (user_id : String) (interactions : List UserInteraction)
    (profile : UserProfile) (context : Option String) (now : ℤ) : Except String DetOut :=
  let error_interactions := interactions.filter (fun i => !i.success)
  if error_interactions.isEmpty then .ok ⟨4/5, .errorFree⟩ else
  let error_types : List (String × Nat) := error_interactions.foldl (fun m e =>
      match e.error_message with
      | some msg => if msg ≠ "" then bumpAssoc m msg (· + 1) 0 else m
      | none => m) []
  let error_elements : List (String × Nat) := error_interactions.foldl (fun m e =>
      match e.element_type with
      | some t => if t ≠ "" then bumpAssoc m t (· + 1) 0 else m
      | none => m) []
  let error_times := error_interactions.map (fun e => hourOf e.timestamp)
  let error_time_distribution : List (String × Nat) := error_times.foldl (fun m h =>
      if 6 ≤ h ∧ h < 12 then bumpAssoc m "morning" (· + 1) 0
      else if 12 ≤ h ∧ h < 18 then bumpAssoc m "afternoon" (· + 1) 0
      else if 18 ≤ h ∧ h < 24 then bumpAssoc m "evening" (· + 1) 0
      else bumpAssoc m "night" (· + 1) 0) []
  let error_trend := _calculate_error_trend error_interactions now
  let error_rate : ℚ := (error_interactions.length : ℚ) / interactions.length
  let confidence : ℚ := if error_interactions.length ≥ 5 then 7/10 else 2/5
  .ok ⟨confidence, .errorInfo error_interactions.length error_rate error_types error_elements
        error_time_distribution error_trend (decide (error_rate > 3/10))⟩

/-- `SmartUIUserAnalyzer._detect_accessibility_needs`.  The indicator dictionary always
holds six entries, two of which are never set, and the score divides by its length 6. -/
def _detect_accessibility_needs (user_id : String) (interactions : List UserInteraction)
    (profile : UserProfile) (context : Option String) (now : ℤ) : Except String DetOut :=
  let total_interactions := interactions.length
  let keyboard_interactions :=
    (interactions.filter (fun i => i.interaction_type.isType .keyboard)).length
  let voice_interactions :=
    (interactions.filter (fun i => i.interaction_type.isType .voice)).length
  let keyboard_navigation : Nat :=
    if total_interactions > 0 ∧ (keyboard_interactions : ℚ) / total_interactions > 7/10
    then 1 else 0
  let voice_preference : Nat :=
    if total_interactions > 0 ∧ (voice_interactions : ℚ) / total_interactions > 1/2
    then 1 else 0
  let interaction_speeds := (interactions.filter (fun i => decide (i.duration > 0))).map (·.duration)
  let slow_interaction_speed : Nat :=
    if ¬ interaction_speeds.isEmpty ∧ qmean interaction_speeds > 3000 then 1 else 0
  let action_counts : List (String × Nat) := interactions.foldl (fun m i =>
      bumpAssoc m (optStr i.element_id ++ "_" ++ i.action) (· + 1) 0) []
  let repetitive := (action_counts.filter (fun p => decide (p.2 > 5))).length
  let repetitive_actions : Nat := if repetitive > 0 then 1 else 0
  let indicators : List (String × Nat) :=
    [("high_contrast_usage", 0), ("large_text_preference", 0),
     ("keyboard_navigation", keyboard_navigation), ("voice_preference", voice_preference),
     ("slow_interaction_speed", slow_interaction_speed),
     ("repetitive_actions", repetitive_actions)]
  let accessibility_score : ℚ :=
    ((keyboard_navigation + voice_preference + slow_interaction_speed +
        repetitive_actions : Nat) : ℚ) / 6
  let recommendations :=
    (if keyboard_navigation = 1 then ["enhanced_keyboard_navigation"] else []) ++
    (if voice_preference = 1 then ["voice_interface_optimization"] else []) ++
    (if slow_interaction_speed = 1 then ["extended_timeout_settings"] else []) ++
    (if repetitive_actions = 1 then ["simplified_workflows"] else [])
  let confidence : ℚ := if total_interactions ≥ 15 then 3/5 else 3/10
  .ok ⟨confidence, .accessibility accessibility_score indicators recommendations
        (decide (accessibility_score > 3/10))⟩

/-- `SmartUIUserAnalyzer._detect_device_adaptation`. -/
def _detect_device_adaptation (user_id : String) (interactions : List UserInteraction)
    (profile : UserProfile) (context : Option String) (now : ℤ) : Except String DetOut :=
  let device_contexts := interactions.filterMap (fun i => i.context.device_info)
  if device_contexts.isEmpty then .ok ⟨0, .empty⟩ else
  let device_types : List (String × Nat) :=
    device_contexts.foldl (fun m d => bumpAssoc m (d.type.getD "unknown") (· + 1) 0) []
  let screen_sizes := device_contexts.filterMap (·.screen_width)
  let input_methods : List (String × Nat) := device_contexts.foldl (fun m d =>
      match d.primary_input with
      | some pi => bumpAssoc m pi (· + 1) 0
      | none => m) []
  let primary_device :=
    match pyMaxBy (fun p => (p.2 : ℚ)) device_types with
    | some p => p.1
    | none => "unknown"
  let screen_preference :=
    if screen_sizes.isEmpty then "unknown"
    else if qmean screen_sizes < 768 then "small"
    else if qmean screen_sizes > 1920 then "large"
    else "medium"
  let primary_input :=
    match pyMaxBy (fun p => (p.2 : ℚ)) input_methods with
    | some p => p.1
    | none => "unknown"
  let confidence : ℚ := if device_contexts.length ≥ 10 then 7/10 else 2/5
  .ok ⟨confidence, .device primary_device device_types screen_preference primary_input
        input_methods (decide (device_types.length > 1))⟩

/-- The real-time statistics stored by `_update_real_time_analysis` under the bare
user id in `analysis_cache`. -/
structure RealTimeStats where
  recent_success_rate : ℚ
  recent_interaction_count : Nat
  last_interaction_type : String
deriving DecidableEq

/-- Synthesized insight payload returned by `analyze_user_behavior`: either the
fixed `insufficient_data` insight dictionary or the per-detector insight map. -/
inductive Insights
  | insufficient
  | results (entries : List (String × DetData))
deriving DecidableEq

/-- The comprehensive analysis dictionary built by `_synthesize_analysis` /
`_get_default_analysis`. -/
structure Analysis where
  user_id : String
  analysis_timestamp : ℤ
  overall_confidence : ℚ
  user_type : String
  recommendations : List String
  insights : Insights
deriving DecidableEq

/-- One `analysis_cache` value: either a cached analysis (under key
`f"{user_id}_{hash(str(context))}"`) or real-time stats (under the bare user id). -/
inductive CacheValue
  | analysis (a : Analysis)
  | realtime (s : RealTimeStats)
deriving DecidableEq

/-- A cache entry with its creation timestamp. -/
structure CacheEntry where
  timestamp : ℤ
  value : CacheValue
deriving DecidableEq

/-- One `session_data` record. -/
structure SessionData where
  start_time : ℤ
  interactions : List UserInteraction
  user_id : String
deriving DecidableEq

/-- Mutable state of one `SmartUIUserAnalyzer` instance. -/
structure AnalyzerState where
  user_profiles : List (String × UserProfile)
  interaction_history : List (String × List UserInteraction)
  session_data : List (String × SessionData)
  analysis_cache : List (String × CacheEntry)
deriving DecidableEq

/-- A freshly constructed analyzer: all four stores empty. -/
def emptyAnalyzerState : AnalyzerState := ⟨[], [], [], []⟩

/-- The profile created on first contact with a user. -/
def newUserProfile (user_id : String) (now : ℤ) : UserProfile :=
  ⟨user_id, now, now, none, none, [], none, none, [], [], []⟩

/-- `SmartUIUserAnalyzer.get_or_create_user_profile`. -/
def get_or_create_user_profile (st : AnalyzerState) (user_id : String) (now : ℤ) :
    UserProfile × AnalyzerState :=
  match lookupAssoc st.user_profiles user_id with
  | some p => (p, st)
  | none =>
    let p := newUserProfile user_id now
    (p, { st with user_profiles := insertAssoc st.user_profiles user_id p })

/-- `SmartUIUserAnalyzer._get_recent_interactions` (no `limit` argument is ever
passed by `analyze_user_behavior`). -/
def _get_recent_interactions (cfg : AnalyzerConfig) (st : AnalyzerState)
    (user_id : String) (now : ℤ) : List UserInteraction :=
  let cutoff_time := now - cfg.analysis_window
  (lookupD st.interaction_history user_id []).filter (fun i => decide (i.timestamp ≥ cutoff_time))

/-- `str(context)` of the optional context argument. -/
def ctxStr : Option String → String
  | none => "None"
  | some s => s

/-- Cache key `f"{user_id}_{hash(str(context))}"`.  `hash` is modelled by the context
string itself: like Python's `hash`, a fixed deterministic function of the context. -/
def cache_key (user_id : String) (context : Option String) : String :=
  user_id ++ "_" ++ ctxStr context

/-- `SmartUIUserAnalyzer._get_default_analysis`. -/
def _get_default_analysis (profile : UserProfile) (now : ℤ) : Analysis :=
  ⟨profile.user_id, now, 3/10, "new_user", ["onboarding_assistance", "usage_tracking"],
    .insufficient⟩

/-- `analysis_results.get(name, {}).get('data', {})`. -/
def detDataOf (rs : List (String × DetOut)) (name : String) : DetData :=
  match lookupAssoc rs name with
  | some o => o.data
  | none => .empty

/-- `SmartUIUserAnalyzer._classify_user_type`. -/
def _classify_user_type (rs : List (String × DetOut)) : String :=
  let efficiency_level := (detDataOf rs "efficiency_pattern").get_efficiency_level
  let primary_input := (detDataOf rs "input_preference").get_primary_preference
  let needs_accessibility := (detDataOf rs "accessibility_needs").get_needs_accessibility_features
  if needs_accessibility then "accessibility_user"
  else if efficiency_level = "expert" then "power_user"
  else if efficiency_level = "beginner" then "novice_user"
  else if primary_input = "voice" then "voice_first_user"
  else if primary_input = "visual" then "visual_user"
  else "balanced_user"

/-- `SmartUIUserAnalyzer._generate_recommendations`. -/
def _generate_recommendations (rs : List (String × DetOut)) (profile : UserProfile) :
    List String :=
  let efficiency_data := detDataOf rs "efficiency_pattern"
  let input_data := detDataOf rs "input_preference"
  let accessibility_data := detDataOf rs "accessibility_needs"
  let device_data := detDataOf rs "device_adaptation"
  let recommendations :=
    (if efficiency_data.get_error_rate > 1/5 then ["error_prevention_enhancement"] else []) ++
    (if efficiency_data.get_avg_task_duration > 3000 then ["workflow_simplification"] else []) ++
    (if input_data.get_primary_preference = "voice" then ["voice_interface_optimization"]
     else if input_data.get_primary_preference = "visual" then ["visual_debugging_enhancement"]
     else []) ++
    (if accessibility_data.get_needs_accessibility_features then
       accessibility_data.get_recommendations
     else []) ++
    (if device_data.get_multi_device_user then ["cross_device_synchronization"] else []) ++
    (if device_data.get_screen_preference = some "small" then ["mobile_optimization"] else [])
  dedupKeepFirst recommendations

/-- `SmartUIUserAnalyzer._synthesize_analysis`. -/
def _synthesize_analysis (cfg : AnalyzerConfig) (rs : List (String × DetOut))
    (profile : UserProfile) (context : Option String) (now : ℤ) : Analysis :=
  let confidences := rs.map (fun r => r.2.confidence)
  let overall_confidence := if confidences.isEmpty then 0 else qmean confidences
  let insights :=
    (rs.filter (fun r => decide (r.2.confidence ≥ cfg.confidence_threshold))).map
      (fun r => (r.1, r.2.data))
  ⟨profile.user_id, now, overall_confidence, _classify_user_type rs,
    _generate_recommendations rs profile, .results insights⟩

/-- `SmartUIUserAnalyzer._update_user_profile`.  `InteractionType(method)` raises
`ValueError` if a preference-score key is not a valid enum value. -/
def _update_user_profile (profile : UserProfile) (analysis : Analysis) (now : ℤ) :
    Except String UserProfile :=
  let profile := { profile with last_updated := now }
  match analysis.insights with
  | .insufficient => .ok profile
  | .results entries =>
    let step1 : Except String UserProfile :=
      match lookupAssoc entries "input_preference" with
      | some d =>
        match (d.get_preference_scores.map Prod.fst).mapM interactionTypeOf with
        | .error e => .error e
        | .ok methods =>
          .ok { profile with preferred_input_methods := methods,
                             interaction_patterns := some d }
      | none => .ok profile
    match step1 with
    | .error e => .error e
    | .ok profile1 =>
      let profile2 :=
        match lookupAssoc entries "efficiency_pattern" with
        | some d => { profile1 with efficiency_metrics := some d }
        | none => profile1
      let profile3 :=
        match lookupAssoc entries "accessibility_needs" with
        | some d => { profile2 with accessibility_needs := some d }
        | none => profile2
      let profile4 :=
        match lookupAssoc entries "device_adaptation" with
        | some d => { profile3 with device_preferences := some d }
        | none => profile3
      .ok profile4

/-- The type of a pattern detector entry of `self.pattern_detectors`. -/
abbrev Detector :=
  String → List UserInteraction → UserProfile → Option String → ℤ → Except String DetOut

/-- The fixed detector table built in `SmartUIUserAnalyzer.__init__`. -/
def pattern_detectors : List (String × Detector) :=
  [("input_preference", _detect_input_preference),
   ("efficiency_pattern", _detect_efficiency_pattern),
   ("error_pattern", _detect_error_pattern),
   ("accessibility_needs", _detect_accessibility_needs),
   ("device_adaptation", _detect_device_adaptation)]

/-- Cache-miss body of `analyze_user_behavior` (everything after the cache check).
Returns the produced analysis (or the escaped exception), the new state and the
number of detector invocations that were made. -/
def analyzeCore (cfg : AnalyzerConfig) (dets : List (String × Detector))
    (st : AnalyzerState) (user_id : String) (context : Option String) (now : ℤ) :
    Except String Analysis × AnalyzerState × Nat :=
  let key := cache_key user_id context
  let pst := get_or_create_user_profile st user_id now
  let profile := pst.1
  let st1 := pst.2
  let recent_interactions := _get_recent_interactions cfg st1 user_id now
  if recent_interactions.length < cfg.min_interactions_for_analysis then
    (.ok (_get_default_analysis profile now), st1, 0)
  else
    let analysis_results := dets.map (fun d =>
      (d.1, match d.2 user_id recent_interactions profile context now with
            | .ok r => r
            | .error _ => ⟨0, .empty⟩))
    let comprehensive_analysis := _synthesize_analysis cfg analysis_results profile context now
    let cache2 := insertAssoc st1.analysis_cache key ⟨now, .analysis comprehensive_analysis⟩
    let st2 := { st1 with analysis_cache := cache2 }
    match _update_user_profile profile comprehensive_analysis now with
    | .error e => (.error e, st2, dets.length)
    | .ok profile2 =>
      (.ok comprehensive_analysis,
        { st2 with user_profiles := insertAssoc st2.user_profiles user_id profile2 },
        dets.length)

/-- `SmartUIUserAnalyzer.analyze_user_behavior`, parameterized by the detector
table.  A fresh cache entry is returned unchanged; reading `['analysis']` from a
real-time entry raises `KeyError`. -/
def analyzeWith (cfg : AnalyzerConfig) (dets : List (String × Detector))
    (st : AnalyzerState) (user_id : String) (context : Option String) (now : ℤ) :
    Except String Analysis × AnalyzerState × Nat :=
  let key := cache_key user_id context
  match lookupAssoc st.analysis_cache key with
  | some entry =>
    if now - entry.timestamp < cfg.cache_ttl then
      match entry.value with
      | .analysis a => (.ok a, st, 0)
      | .realtime _ => (.error "KeyError: analysis", st, 0)
    else analyzeCore cfg dets st user_id context now
  | none => analyzeCore cfg dets st user_id context now

/-- `SmartUIUserAnalyzer.analyze_user_behavior` with the detector table of the class. -/
def analyze_user_behavior (cfg : AnalyzerConfig) (st : AnalyzerState) (user_id : String)
    (context : Option String) (now : ℤ) : Except String Analysis × AnalyzerState × Nat :=
  analyzeWith cfg pattern_detectors st user_id context now

/-- `SmartUIUserAnalyzer._update_real_time_analysis`.  Returns the state after the
call together with `false` when the call raised (`AttributeError` on a malformed
modality, `KeyError` when the bare-user-id entry has no `real_time_stats`); the
dictionary mutations made before the raising line persist. -/
def _update_real_time_analysis (st : AnalyzerState) (i : UserInteraction) (now : ℤ) :
    AnalyzerState × Bool :=
  match lookupAssoc st.analysis_cache i.user_id with
  | none =>
    match i.interaction_type.valueE with
    | .error _ => (st, false)
    | .ok v =>
      let entry : CacheEntry := ⟨now, .realtime ⟨if i.success then 1 else 0, 1, v⟩⟩
      ({ st with analysis_cache := insertAssoc st.analysis_cache i.user_id entry }, true)
  | some entry =>
    match entry.value with
    | .analysis _ => (st, false)
    | .realtime stats =>
      let stats1 : RealTimeStats :=
        { stats with
            recent_interaction_count := stats.recent_interaction_count + 1,
            recent_success_rate :=
              (1 - 1/10) * stats.recent_success_rate + (1/10) * (if i.success then 1 else 0) }
      match i.interaction_type.valueE with
      | .error _ =>
        let entry1 : CacheEntry := ⟨entry.timestamp, .realtime stats1⟩
        ({ st with analysis_cache := insertAssoc st.analysis_cache i.user_id entry1 }, false)
      | .ok v =>
        let entry1 : CacheEntry :=
          ⟨entry.timestamp, .realtime { stats1 with last_interaction_type := v }⟩
        ({ st with analysis_cache := insertAssoc st.analysis_cache i.user_id entry1 }, true)

/-- `SmartUIUserAnalyzer._cleanup_expired_cache`. -/
def _cleanup_expired_cache (cfg : AnalyzerConfig) (st : AnalyzerState) (now : ℤ) :
    AnalyzerState :=
  { st with analysis_cache :=
      st.analysis_cache.filter (fun p => decide (now - p.2.timestamp ≤ cfg.cache_ttl)) }

/-- `SmartUIUserAnalyzer.record_interaction`.  The whole body runs in a
`try/except` that logs and returns `False`; the history and session appends
happen before any raising statement and therefore persist on failure. -/
def record_interaction (cfg : AnalyzerConfig) (st : AnalyzerState) (i : UserInteraction)
    (now : ℤ) : Bool × AnalyzerState :=
  let hist1 := bumpAssoc st.interaction_history i.user_id (fun buf => dequeAppend 1000 buf i) []
  let st1 := { st with interaction_history := hist1 }
  let st2 :=
    match lookupAssoc st1.session_data i.session_id with
    | some sd =>
      let sd1 := { sd with interactions := sd.interactions ++ [i] }
      { st1 with session_data := insertAssoc st1.session_data i.session_id sd1 }
    | none =>
      { st1 with session_data := insertAssoc st1.session_data i.session_id ⟨i.timestamp, [i], i.user_id⟩ }
  match _update_real_time_analysis st2 i now with
  | (st3, true) => (true, _cleanup_expired_cache cfg st3 now)
  | (st3, false) => (false, st3)

end Analyzer

namespace Enhanced

/-- `DecisionStrategy` enum of `enhanced_decision_engine.py`. -/
inductive DecisionStrategy
  | rule_based | ml_based | hybrid | heuristic | smartui_enhanced
deriving DecidableEq

/-- `FrameworkPriority` enum. -/
inductive FrameworkPriority
  | stagewise | livekit | smartui | balanced
deriving DecidableEq

/-- `_analyze_interaction_patterns` result dictionary. -/
structure InteractionPatterns where
  preferred_input_method : String
  interaction_frequency : ℚ
  session_duration : ℚ
  error_rate : ℚ
deriving DecidableEq

/-- `_analyze_device_preferences` result dictionary. -/
structure DevicePreferences where
  screen_size_preference : String
  input_method_preference : String
  performance_priority : String
  accessibility_features : List String
deriving DecidableEq

/-- `_analyze_efficiency_metrics` result dictionary. -/
structure EfficiencyMetrics where
  task_completion_rate : ℚ
  average_task_time : ℚ
  error_recovery_time : ℚ
  feature_discovery_rate : ℚ
deriving DecidableEq

/-- The per-user profile dictionary maintained by the embedded
`UserBehaviorAnalyzer` of `enhanced_decision_engine.py`.  `preferences` and
`accessibility_needs` are created empty and never written. -/
structure SimpleProfile where
  interaction_patterns : Option InteractionPatterns
  device_preferences : Option DevicePreferences
  efficiency_metrics : Option EfficiencyMetrics
deriving DecidableEq

/-- One entry of `DecisionContext.user_history` (a free-form dict; the analyzer
reads `type` and `completed`). -/
structure HistoryItem where
  htype : Option String
  completed : Bool
deriving DecidableEq

/-- The `intent` dictionary of a voice command. -/
structure Intent where
  target : Option String
  value : Option String
deriving DecidableEq

/-- `DecisionContext.voice_context`. -/
structure VoiceCtx where
  transcript : String
  intent : Intent
  confidence : ℚ
deriving DecidableEq

/-- `DecisionContext.visual_context` (`selected_element` is a free-form dict whose
length and `id` entry are read). -/
structure VisualCtx where
  selected_element : List (String × String)
  debug_action : String
deriving DecidableEq

/-- `DecisionContext.device_info`. -/
structure EngineDeviceInfo where
  screen_width : Option ℚ
  is_mobile : Bool
deriving DecidableEq

/-- `DecisionContext` dataclass of `enhanced_decision_engine.py`. -/
structure DecisionContext where
  user_id : String
  session_id : String
  timestamp : ℤ
  device_info : EngineDeviceInfo
  current_page : Option String
  user_history : List HistoryItem
  voice_context : Option VoiceCtx
  visual_context : Option VisualCtx
  smartui_profile : Option SimpleProfile
deriving DecidableEq

/-- The `input_data` dictionary passed to `make_decision`; absent keys are the
`.get` defaults. -/
structure InputData where
  input_type : String
  command : String := ""
  intent : Intent := ⟨none, none⟩
  confidence : ℚ := 0
  selected_element : List (String × String) := []
  debug_action : String := ""
deriving DecidableEq

/-- A value of an action's `modification_data` dictionary. -/
inductive MVal
  | s (v : String)
  | b (v : Bool)
  | profileOf (p : Option SimpleProfile)
deriving DecidableEq

/-- One action dictionary of a `DecisionResult`. -/
structure Action where
  type : String
  target_element : String
  modification_type : String
  modification_data : List (String × MVal)
deriving DecidableEq

/-- The `metadata` dictionary of a `DecisionResult`, one constructor per strategy. -/
inductive Metadata
  | ruleMeta (rule_matches : Nat)
  | mlMeta (features : List (String × ℚ)) (model_version : String)
  | hybridMeta (rule_confidence ml_confidence combination_weight : ℚ)
  | smartuiMeta (user_profile : Option SimpleProfile) (personalization_level : String)
  | heuristicMeta (heuristics_applied : Nat)
deriving DecidableEq

/-- `DecisionResult` dataclass of `enhanced_decision_engine.py`. -/
structure DecisionResult where
  decision_id : String
  strategy_used : DecisionStrategy
  confidence : ℚ
  primary_framework : FrameworkPriority
  actions : List Action
  reasoning : String
  metadata : Metadata
  timestamp : ℤ
deriving DecidableEq

/-- The `framework_weights` dictionary (three fixed keys, initial values
0.3 / 0.3 / 0.4). -/
structure FrameworkWeights where
  stagewise : ℚ
  livekit : ℚ
  smartui : ℚ
deriving DecidableEq

/-- Initial weights set in `EnhancedDecisionEngine.__init__`. -/
def initWeights : FrameworkWeights := ⟨3/10, 3/10, 4/10⟩

/-- Sum of the weight dictionary's values. -/
def FrameworkWeights.total (w : FrameworkWeights) : ℚ :=
  w.stagewise + w.livekit + w.smartui

/-- Multiply the weight of `fw` by `c`; `balanced` has no entry in the dictionary
(`if decision.primary_framework in self.framework_weights`), so it changes nothing. -/
def FrameworkWeights.scaleAt (w : FrameworkWeights) (fw : FrameworkPriority) (c : ℚ) :
    FrameworkWeights :=
  match fw with
  | .stagewise => { w with stagewise := w.stagewise * c }
  | .livekit => { w with livekit := w.livekit * c }
  | .smartui => { w with smartui := w.smartui * c }
  | .balanced => w

/-- `EnhancedDecisionEngine._learn_from_decision`: conditional multiplicative
update followed by renormalization of all weights. -/
def _learn_from_decision (w : FrameworkWeights) (confidence : ℚ)
    (primary_framework : FrameworkPriority) : FrameworkWeights :=
  let w1 :=
    if confidence > 4/5 then w.scaleAt primary_framework (105/100)
    else if confidence < 1/2 then w.scaleAt primary_framework (95/100)
    else w
  let total_weight := w1.total
  ⟨w1.stagewise / total_weight, w1.livekit / total_weight, w1.smartui / total_weight⟩

/-- `UserBehaviorAnalyzer._analyze_interaction_patterns`. -/
def _analyze_interaction_patterns (context : DecisionContext) : InteractionPatterns :=
  let base : InteractionPatterns := ⟨"mixed", 0, 0, 0⟩
  if context.user_history.isEmpty then base else
  let voice_interactions := (context.user_history.filter (fun h => h.htype = some "voice")).length
  let visual_interactions := (context.user_history.filter (fun h => h.htype = some "visual")).length
  let total_interactions := context.user_history.length
  if total_interactions > 0 then
    let voice_ratio : ℚ := (voice_interactions : ℚ) / total_interactions
    let visual_ratio : ℚ := (visual_interactions : ℚ) / total_interactions
    if voice_ratio > 7/10 then { base with preferred_input_method := "voice" }
    else if visual_ratio > 7/10 then { base with preferred_input_method := "visual" }
    else { base with preferred_input_method := "mixed" }
  else base

/-- `UserBehaviorAnalyzer._analyze_device_preferences`. -/
def _analyze_device_preferences (context : DecisionContext) : DevicePreferences :=
  let base : DevicePreferences := ⟨"medium", "mixed", "balanced", []⟩
  let width := context.device_info.screen_width.getD 1024
  if width < 768 then
    { base with screen_size_preference := "small", performance_priority := "performance" }
  else if width > 1920 then
    { base with screen_size_preference := "large", performance_priority := "features" }
  else base

/-- `UserBehaviorAnalyzer._analyze_efficiency_metrics`. -/
def _analyze_efficiency_metrics (context : DecisionContext) : EfficiencyMetrics :=
  let base : EfficiencyMetrics := ⟨85/100, 120, 30, 3/5⟩
  if context.user_history.isEmpty then base else
  let completed_tasks := (context.user_history.filter (fun h => h.completed)).length
  let total_tasks := (context.user_history.filter (fun h => h.htype = some "task")).length
  if total_tasks > 0 then
    { base with task_completion_rate := (completed_tasks : ℚ) / total_tasks }
  else base

/-- `UserBehaviorAnalyzer.analyze_user_behavior` of `enhanced_decision_engine.py`:
creates the profile if needed and overwrites each sub-dictionary with the full
key set produced by the three analysis helpers. -/
def analyzerAnalyze (profiles : List (String × SimpleProfile)) (context : DecisionContext) :
    SimpleProfile × List (String × SimpleProfile) :=
  let profile : SimpleProfile :=
    ⟨some (_analyze_interaction_patterns context),
     some (_analyze_device_preferences context),
     some (_analyze_efficiency_metrics context)⟩
  (profile, insertAssoc profiles context.user_id profile)

end Enhanced

namespace Enhanced

/-- `EnhancedDecisionEngine.__init__` configuration. -/
structure EngineConfig where
  strategy : DecisionStrategy := .hybrid
  confidence_threshold : ℚ := 7/10
  learning_enabled : Bool := true
deriving DecidableEq

/-- Mutable state of one `EnhancedDecisionEngine` instance. -/
structure EngineState where
  framework_weights : FrameworkWeights
  decision_history : List DecisionResult
  analyzer_profiles : List (String × SimpleProfile)
deriving DecidableEq

/-- A freshly constructed engine. -/
def emptyEngineState : EngineState := ⟨initWeights, [], []⟩

/-- `EnhancedDecisionEngine._rule_based_decision`.  The keyword tables are the
source's; note the `elif` binds to the outer `if`, so a modify keyword without a
color keyword falls through to the 0.6 default. -/
def _rule_based_decision (context : DecisionContext) (input_data : InputData) (now : ℤ) :
    DecisionResult :=
  let base : DecisionResult :=
    ⟨"", .rule_based, 3/5, .balanced, [], "基於預定義規則的決策", .ruleMeta 0, now⟩
  let finish : List Action → ℚ → FrameworkPriority → String → DecisionResult :=
    fun actions confidence primary_framework reasoning =>
      ⟨"", .rule_based, confidence, primary_framework, actions, reasoning,
        .ruleMeta actions.length, now⟩
  if input_data.input_type = "voice" then
    let transcript := input_data.command.toLower
    let intent := input_data.intent
    if strContains transcript "修改" ∨ strContains transcript "改變" ∨
       strContains transcript "change" ∨ strContains transcript "modify" then
      if strContains transcript "顏色" ∨ strContains transcript "color" then
        finish [⟨"modify_style", intent.target.getD "button", "style",
                 [("color", .s (intent.value.getD "blue"))]⟩]
          (4/5) .livekit "語音指令匹配顏色修改規則"
      else
        { base with metadata := .ruleMeta 0 }
    else if strContains transcript "選擇" ∨ strContains transcript "點擊" ∨
            strContains transcript "select" ∨ strContains transcript "click" then
      finish [⟨"select_element", intent.target.getD "button", "interaction",
               [("action", .s "click")]⟩]
        (3/4) .livekit "語音指令匹配選擇操作規則"
    else
      { base with metadata := .ruleMeta 0 }
  else if input_data.input_type = "visual_debug" then
    if input_data.debug_action = "inspect" then
      finish [⟨"show_inspector", lookupD input_data.selected_element "id" "", "debug",
               [("show_properties", .b true), ("highlight", .b true)]⟩]
        (9/10) .stagewise "可視化調試檢查元素規則"
    else if input_data.debug_action = "modify" then
      finish [⟨"enable_edit_mode", lookupD input_data.selected_element "id" "", "debug",
               [("edit_mode", .b true)]⟩]
        (85/100) .stagewise "可視化調試修改元素規則"
    else
      { base with metadata := .ruleMeta 0 }
  else
    { base with metadata := .ruleMeta 0 }

/-- `EnhancedDecisionEngine._extract_features`. -/
def _extract_features (context : DecisionContext) (input_data : InputData) :
    List (String × ℚ) :=
  (match context.voice_context with
   | some vc => [("voice_confidence", vc.confidence),
                 ("voice_length", (vc.transcript.length : ℚ) / 100)]
   | none => []) ++
  (match context.visual_context with
   | some vsc => [("visual_complexity", (vsc.selected_element.length : ℚ) / 10)]
   | none => []) ++
  (match context.smartui_profile with
   | some p =>
     [("user_efficiency",
        (p.efficiency_metrics.map (·.task_completion_rate)).getD (1/2)),
      ("user_experience", (context.user_history.length : ℚ) / 100)]
   | none => []) ++
  [("screen_size", min ((context.device_info.screen_width.getD 1024) / 1920) 1),
   ("is_mobile", if context.device_info.is_mobile then 1 else 0)]

/-- `features.get(key, 0)`. -/
def fget (features : List (String × ℚ)) (key : String) : ℚ := lookupD features key 0

/-- `EnhancedDecisionEngine._ml_based_decision`.  The call `np.random.random()` is
made explicit as the parameter `r ∈ [0,1)`. -/
def _ml_based_decision (context : DecisionContext) (input_data : InputData) (r : ℚ)
    (now : ℤ) : DecisionResult :=
  let features := _extract_features context input_data
  let confidence := 7/10 + r * (2/10)
  if fget features "voice_confidence" > 4/5 then
    ⟨"", .ml_based, confidence, .livekit,
      [⟨"voice_response", "voice_interface", "interaction",
        [("response", .s "voice_command_processed")]⟩],
      "基於機器學習模型的預測決策", .mlMeta features "1.0", now⟩
  else if fget features "visual_complexity" > 7/10 then
    ⟨"", .ml_based, confidence, .stagewise,
      [⟨"simplify_interface", "main_container", "layout",
        [("complexity_reduction", .b true)]⟩],
      "基於機器學習模型的預測決策", .mlMeta features "1.0", now⟩
  else
    ⟨"", .ml_based, confidence, .smartui,
      [⟨"adaptive_ui", "adaptive_container", "smart_adaptation",
        [("user_profile", .profileOf context.smartui_profile)]⟩],
      "基於機器學習模型的預測決策", .mlMeta features "1.0", now⟩

/-- The fusion step of `EnhancedDecisionEngine._hybrid_decision` (everything after
the two engine calls have completed): blend of confidences, higher-confidence
primary, membership-deduplicated action merge, concatenated reasoning. -/
def _hybrid_combine (rule_decision ml_decision : DecisionResult) (now : ℤ) :
    DecisionResult :=
  let combined_confidence := rule_decision.confidence * (6/10) + ml_decision.confidence * (4/10)
  let primary_decision :=
    if rule_decision.confidence > ml_decision.confidence then rule_decision else ml_decision
  let secondary_decision :=
    if rule_decision.confidence > ml_decision.confidence then ml_decision else rule_decision
  let combined_actions := primary_decision.actions ++
    secondary_decision.actions.filter (fun a => decide (a ∉ primary_decision.actions))
  ⟨"", .hybrid, combined_confidence, primary_decision.primary_framework, combined_actions,
    "混合決策：" ++ primary_decision.reasoning ++ " + " ++ secondary_decision.reasoning,
    .hybridMeta rule_decision.confidence ml_decision.confidence (6/10), now⟩

/-- `EnhancedDecisionEngine._hybrid_decision`. -/
def _hybrid_decision (context : DecisionContext) (input_data : InputData) (r : ℚ)
    (now : ℤ) : DecisionResult :=
  _hybrid_combine (_rule_based_decision context input_data now)
    (_ml_based_decision context input_data r now) now

/-- `EnhancedDecisionEngine._smartui_enhanced_decision`. -/
def _smartui_enhanced_decision (context : DecisionContext) (input_data : InputData)
    (now : ℤ) : DecisionResult :=
  let user_profile := context.smartui_profile
  let preferred_input :=
    ((user_profile.bind (·.interaction_patterns)).map (·.preferred_input_method)).getD "mixed"
  let efficiency_metrics := user_profile.bind (·.efficiency_metrics)
  let device_preferences := user_profile.bind (·.device_preferences)
  let step1 : List Action × ℚ × FrameworkPriority :=
    if preferred_input = "voice" then
      ([⟨"enhance_voice_ui", "voice_interface", "enhancement",
         [("voice_priority", .b true), ("visual_hints", .b true), ("speech_feedback", .b true)]⟩],
       9/10, .livekit)
    else if preferred_input = "visual" then
      ([⟨"enhance_visual_ui", "visual_interface", "enhancement",
         [("visual_priority", .b true), ("debug_tools", .b true),
          ("element_highlighting", .b true)]⟩],
       85/100, .stagewise)
    else
      ([⟨"balanced_ui", "main_interface", "enhancement",
         [("multimodal", .b true), ("adaptive_switching", .b true),
          ("context_awareness", .b true)]⟩],
       8/10, .smartui)
  let task_completion_rate := (efficiency_metrics.map (·.task_completion_rate)).getD (85/100)
  let step2 :=
    if task_completion_rate < 7/10 then
      step1.1 ++ [⟨"simplify_workflow", "workflow_container", "optimization",
        [("reduce_steps", .b true), ("add_guidance", .b true), ("error_prevention", .b true)]⟩]
    else step1.1
  let screen_size := (device_preferences.map (·.screen_size_preference)).getD "medium"
  let step3 :=
    if screen_size = "small" then
      step2 ++ [⟨"mobile_optimization", "responsive_container", "responsive",
        [("mobile_first", .b true), ("touch_friendly", .b true), ("compact_layout", .b true)]⟩]
    else step2
  ⟨"", .smartui_enhanced, step1.2.1, step1.2.2, step3,
    "基於SmartUI用戶檔案的個性化決策", .smartuiMeta user_profile "high", now⟩

/-- `EnhancedDecisionEngine._heuristic_decision` (`datetime.now().hour` is derived
from the explicit `now`). -/
def _heuristic_decision (context : DecisionContext) (input_data : InputData) (now : ℤ) :
    DecisionResult :=
  let current_hour := hourOf now
  let step1 : List Action × ℚ :=
    if 9 ≤ current_hour ∧ current_hour ≤ 17 then
      ([⟨"work_mode_ui", "main_container", "theme",
         [("theme", .s "professional"), ("distractions", .s "minimal")]⟩], 7/10)
    else ([], 1/2)
  let step2 : List Action × ℚ :=
    if context.device_info.is_mobile then
      (step1.1 ++ [⟨"mobile_ui", "responsive_container", "responsive",
         [("mobile_optimized", .b true)]⟩], 8/10)
    else step1
  ⟨"", .heuristic, step2.2, .balanced, step2.1, "基於啟發式規則的決策",
    .heuristicMeta step2.1.length, now⟩

/-- The strategy methods invoked by `make_decision`, as explicit parameters so an
exception raised inside one of them (modelled as `.error`) can be expressed; the
source wraps none of these calls in `try/except`. -/
structure EngineFns where
  rule : DecisionContext → InputData → ℤ → Except String DecisionResult
  ml : DecisionContext → InputData → ℚ → ℤ → Except String DecisionResult
  smartui : DecisionContext → InputData → ℤ → Except String DecisionResult
  heuristic : DecisionContext → InputData → ℤ → Except String DecisionResult

/-- The engine's own (total) strategy methods. -/
def defaultEngineFns : EngineFns :=
  ⟨fun c i now => .ok (_rule_based_decision c i now),
   fun c i r now => .ok (_ml_based_decision c i r now),
   fun c i now => .ok (_smartui_enhanced_decision c i now),
   fun c i now => .ok (_heuristic_decision c i now)⟩

/-- `EnhancedDecisionEngine.make_decision`, parameterized by the strategy methods.
No `try/except` surrounds the dispatch: an exception raised by a strategy method
propagates to the caller (the profile update made before it persists). -/
def makeDecisionWith (fns : EngineFns) (cfg : EngineConfig) (st : EngineState)
    (context : DecisionContext) (input_data : InputData) (r : ℚ) (now : ℤ)
    (decision_id : String) : Except String DecisionResult × EngineState :=
  let pa := analyzerAnalyze st.analyzer_profiles context
  let user_profile := pa.1
  let profiles1 := pa.2
  let context1 := { context with smartui_profile := some user_profile }
  let dispatched : Except String DecisionResult :=
    match cfg.strategy with
    | .rule_based => fns.rule context1 input_data now
    | .ml_based => fns.ml context1 input_data r now
    | .hybrid =>
      match fns.rule context1 input_data now with
      | .error e => .error e
      | .ok rule_decision =>
        match fns.ml context1 input_data r now with
        | .error e => .error e
        | .ok ml_decision => .ok (_hybrid_combine rule_decision ml_decision now)
    | .smartui_enhanced => fns.smartui context1 input_data now
    | .heuristic => fns.heuristic context1 input_data now
  match dispatched with
  | .error e => (.error e, { st with analyzer_profiles := profiles1 })
  | .ok result0 =>
    let result := { result0 with decision_id := decision_id, timestamp := now }
    let st2 : EngineState :=
      ⟨st.framework_weights, st.decision_history ++ [result], profiles1⟩
    let w3 := _learn_from_decision st2.framework_weights result.confidence result.primary_framework
    let st3 := if cfg.learning_enabled then { st2 with framework_weights := w3 } else st2
    (.ok result, st3)

/-- `EnhancedDecisionEngine.make_decision` with the engine's own strategy methods. -/
def make_decision (cfg : EngineConfig) (st : EngineState) (context : DecisionContext)
    (input_data : InputData) (r : ℚ) (now : ℤ) (decision_id : String) :
    Except String DecisionResult × EngineState :=
  makeDecisionWith defaultEngineFns cfg st context input_data r now decision_id

/-- Identity of a concurrently invoked strategy engine in the hybrid fusion. -/
inductive EngineId
  | rule | ml
deriving DecidableEq

/-- Hybrid fusion fed by completion events: the two engine results arrive as a
list tagged by engine identity in completion order; fusion reads each result by
identity (the sequential `await`s of `_hybrid_decision` bind results to names,
never to arrival positions) and combines them with `_hybrid_combine`. -/
def fuseArrivals (arrivals : List (EngineId × DecisionResult)) (now : ℤ) :
    Option DecisionResult :=
  match lookupAssoc arrivals .rule, lookupAssoc arrivals .ml with
  | some rule_decision, some ml_decision =>
    some (_hybrid_combine rule_decision ml_decision now)
  | _, _ => none

end Enhanced

namespace Engine

/-- An alternative dictionary merged by `_integrate_decisions` (free-form; the keys
read are `action_type`, `target_element` and `confidence`). -/
structure Alt where
  action_type : Option String
  target_element : Option String
  confidence : ℚ
deriving DecidableEq

/-- One step of an `execution_plan`. -/
structure PlanStep where
  step : Nat
  action : String
  target : String
  parameters : List (String × String)
deriving DecidableEq

/-- `DecisionResult` dataclass of `decision_engine.py`. -/
structure DecisionResult where
  action_type : String
  target_element : String
  parameters : List (String × String)
  confidence : ℚ
  reasoning : String
  alternatives : List Alt
  execution_plan : List PlanStep
deriving DecidableEq

/-- The `input_data` dictionary handed to the three engines. -/
structure InputData where
  action : String := ""
  target : String := ""
  parameters : List (String × String) := []
deriving DecidableEq

/-- `RuleBasedDecisionEngine.decide`. -/
def ruleDecide (input_data : InputData) : DecisionResult :=
  if input_data.action = "modify" ∧ input_data.target ≠ "" then
    ⟨"ui_modification", input_data.target, input_data.parameters, 8/10,
      "Rule-based decision for UI modification", [],
      [⟨1, "modify_element", input_data.target, input_data.parameters⟩]⟩
  else
    ⟨"unknown", "", [], 1/10, "No matching rule found", [], []⟩

/-- `MLBasedDecisionEngine.decide`. -/
def mlDecide (input_data : InputData) : DecisionResult :=
  ⟨"ml_prediction", input_data.target, input_data.parameters, 3/4,
    "ML-based prediction", [], []⟩

/-- `HeuristicDecisionEngine.decide`. -/
def heuristicDecide (input_data : InputData) : DecisionResult :=
  ⟨"heuristic_decision", input_data.target, input_data.parameters, 3/5,
    "Heuristic-based decision", [], []⟩

/-- Alternative dedup key `f"{alt.get('action_type')}_{alt.get('target_element')}"`. -/
def altKey (a : Alt) : String := optStr a.action_type ++ "_" ++ optStr a.target_element

/-- First-occurrence dedup of alternatives by `altKey` (the `seen`-set loop). -/
def dedupAlts : List Alt → List String → List Alt
  | [], _ => []
  | a :: rest, seen =>
    if altKey a ∈ seen then dedupAlts rest seen
    else a :: dedupAlts rest (altKey a :: seen)

/-- `SmartUIDecisionEngine._integrate_decisions`.  `max` of the empty list raises
`ValueError`, modelled as `none`. -/
def _integrate_decisions (decisions : List DecisionResult) : Option DecisionResult :=
  let total_confidence := (decisions.map (·.confidence)).sum
  let weight : DecisionResult → ℚ := fun d =>
    if total_confidence > 0 then d.confidence / total_confidence
    else 1 / (decisions.length : ℚ)
  match pyMaxBy (·.confidence) decisions with
  | none => none
  | some primary_decision =>
    let all_alternatives := decisions.flatMap (·.alternatives)
    let unique_alternatives := dedupAlts all_alternatives []
    let sorted_alternatives :=
      stableSort (fun a b => decide (b.confidence ≤ a.confidence)) unique_alternatives
    some ⟨primary_decision.action_type, primary_decision.target_element,
      primary_decision.parameters,
      (decisions.map (fun d => weight d * d.confidence)).sum,
      "Hybrid decision based on " ++ toString decisions.length ++ " strategies",
      sorted_alternatives.take 5,
      primary_decision.execution_plan⟩

/-- `SmartUIDecisionEngine._hybrid_decision`: the three engines run sequentially
and their results are integrated. -/
def hybridDecision (input_data : InputData) : Option DecisionResult :=
  _integrate_decisions [ruleDecide input_data, mlDecide input_data, heuristicDecide input_data]

end Engine

section AssocLemmas

variable {κ α : Type} [DecidableEq κ]

theorem lookupAssoc_nil (k : κ) : lookupAssoc ([] : List (κ × α)) k = none := rfl

theorem lookupAssoc_cons (p : κ × α) (t : List (κ × α)) (k : κ) :
    lookupAssoc (p :: t) k = if p.1 = k then some p.2 else lookupAssoc t k := by
  by_cases h : p.1 = k <;> simp [lookupAssoc, List.find?_cons, h]

theorem lookupAssoc_insertAssoc_self (l : List (κ × α)) (k : κ) (v : α) :
    lookupAssoc (insertAssoc l k v) k = some v := by
  induction l with
  | nil => simp [insertAssoc, lookupAssoc_cons]
  | cons p t ih =>
    by_cases h : p.1 = k
    · simp [insertAssoc, h, lookupAssoc_cons]
    · simp [insertAssoc, h, lookupAssoc_cons, ih]

theorem lookupAssoc_bumpAssoc_self (l : List (κ × α)) (k : κ) (f : α → α) (d : α) :
    lookupAssoc (bumpAssoc l k f d) k = some (f (lookupD l k d)) := by
  induction l with
  | nil => simp [bumpAssoc, lookupAssoc_cons, lookupD, lookupAssoc_nil]
  | cons p t ih =>
    by_cases h : p.1 = k
    · simp [bumpAssoc, h, lookupAssoc_cons, lookupD]
    · simp [bumpAssoc, h, lookupAssoc_cons, lookupD, ih]

theorem lookupAssoc_bumpAssoc_ne (l : List (κ × α)) (k' k : κ) (f : α → α) (d : α)
    (h : k' ≠ k) : lookupAssoc (bumpAssoc l k' f d) k = lookupAssoc l k := by
  induction l with
  | nil => simp [bumpAssoc, lookupAssoc_cons, lookupAssoc_nil, h]
  | cons p t ih =>
    by_cases hp : p.1 = k'
    · simp [bumpAssoc, hp, lookupAssoc_cons, h]
    · simp [bumpAssoc, hp, lookupAssoc_cons, ih]

theorem lookupAssoc_perm {l1 l2 : List (κ × α)} (h : l1.Perm l2)
    (hnd : (l1.map Prod.fst).Nodup) (k : κ) : lookupAssoc l1 k = lookupAssoc l2 k := by
  induction h with
  | nil => rfl
  | cons x h ih =>
    simp only [List.map_cons, List.nodup_cons] at hnd
    simp [lookupAssoc_cons, ih hnd.2]
  | swap x y t =>
    simp only [List.map_cons, List.nodup_cons, List.mem_cons] at hnd
    have hxy : y.1 ≠ x.1 := fun e => hnd.1 (Or.inl e)
    by_cases h1 : y.1 = k <;> by_cases h2 : x.1 = k <;>
      simp [lookupAssoc_cons, h1, h2]
    exact absurd (h1.trans h2.symm) hxy
  | trans h1 h2 ih1 ih2 =>
    have hnd2 := ((h1.map Prod.fst).nodup_iff).mp hnd
    exact (ih1 hnd).trans (ih2 hnd2)

end AssocLemmas

section DequeLemmas

variable {α : Type}

theorem foldl_dequeAppend (cap : Nat) (xs : List α) :
    xs.foldl (dequeAppend cap) [] = xs.drop (xs.length - cap) := by
  induction xs using List.reverseRecOn with
  | nil => simp
  | append_singleton xs x ih =>
    rw [List.foldl_append, List.foldl_cons, List.foldl_nil, ih]
    unfold dequeAppend
    have hle : xs.length - cap ≤ xs.length := Nat.sub_le _ _
    have h1 : xs.drop (xs.length - cap) ++ [x] = (xs ++ [x]).drop (xs.length - cap) :=
      (List.drop_append_of_le_length hle).symm
    rw [h1, List.drop_drop, List.length_drop]
    simp only [List.length_append, List.length_singleton]
    congr 1
    omega

theorem length_foldl_dequeAppend (cap : Nat) (xs : List α) :
    (xs.foldl (dequeAppend cap) []).length = min xs.length cap := by
  rw [foldl_dequeAppend, List.length_drop]
  omega

end DequeLemmas

section WeightLemmas

theorem scaleAt_pos (w : Enhanced.FrameworkWeights) (fw : Enhanced.FrameworkPriority)
    (k : ℚ) (hk : 0 < k) (h1 : 0 < w.stagewise) (h2 : 0 < w.livekit) (h3 : 0 < w.smartui) :
    0 < (w.scaleAt fw k).stagewise ∧ 0 < (w.scaleAt fw k).livekit ∧
      0 < (w.scaleAt fw k).smartui := by
  cases fw
  · exact ⟨mul_pos h1 hk, h2, h3⟩
  · exact ⟨h1, mul_pos h2 hk, h3⟩
  · exact ⟨h1, h2, mul_pos h3 hk⟩
  · exact ⟨h1, h2, h3⟩

theorem learn_step_preserves (w : Enhanced.FrameworkWeights) (c : ℚ)
    (fw : Enhanced.FrameworkPriority)
    (h1 : 0 < w.stagewise) (h2 : 0 < w.livekit) (h3 : 0 < w.smartui) :
    (0 < (Enhanced._learn_from_decision w c fw).stagewise ∧
     0 < (Enhanced._learn_from_decision w c fw).livekit ∧
     0 < (Enhanced._learn_from_decision w c fw).smartui) ∧
    (Enhanced._learn_from_decision w c fw).total = 1 := by
  have hpos : ∀ w1 : Enhanced.FrameworkWeights,
      0 < w1.stagewise → 0 < w1.livekit → 0 < w1.smartui →
      (0 < w1.stagewise / w1.total ∧ 0 < w1.livekit / w1.total ∧
        0 < w1.smartui / w1.total) ∧
      (w1.stagewise / w1.total + w1.livekit / w1.total + w1.smartui / w1.total = 1) := by
    intro w1 ha hb hc
    have ht : 0 < w1.total := by
      unfold Enhanced.FrameworkWeights.total; linarith
    refine ⟨⟨div_pos ha ht, div_pos hb ht, div_pos hc ht⟩, ?_⟩
    rw [div_add_div_same, div_add_div_same]
    exact div_self (ne_of_gt ht)
  have e : Enhanced._learn_from_decision w c fw =
      (fun w1 : Enhanced.FrameworkWeights =>
        (⟨w1.stagewise / w1.total, w1.livekit / w1.total, w1.smartui / w1.total⟩ :
          Enhanced.FrameworkWeights))
      (if c > 4/5 then w.scaleAt fw (105/100)
       else if c < 1/2 then w.scaleAt fw (95/100) else w) := rfl
  rw [e]
  split_ifs with hc1 hc2
  · have h := scaleAt_pos w fw (105/100) (by norm_num) h1 h2 h3
    exact hpos _ h.1 h.2.1 h.2.2
  · have h := scaleAt_pos w fw (95/100) (by norm_num) h1 h2 h3
    exact hpos _ h.1 h.2.1 h.2.2
  · exact hpos _ h1 h2 h3

end WeightLemmas

/-- C3: for every sequence of weight-adaptation steps (each a decision confidence
together with its primary framework) applied from the initial weight dictionary,
the framework weight vector sums to 1.0 within 1e-6 immediately after every step
(in exact arithmetic the renormalized sum is exactly 1). -/
theorem framework_weights_sum_one_after_each_step
    (steps : List (ℚ × Enhanced.FrameworkPriority)) :
    |(steps.foldl (fun w s => Enhanced._learn_from_decision w s.1 s.2)
        Enhanced.initWeights).total - 1| ≤ 1 / 1000000 := by
  have aux : ∀ (l : List (ℚ × Enhanced.FrameworkPriority)) (w : Enhanced.FrameworkWeights),
      0 < w.stagewise → 0 < w.livekit → 0 < w.smartui → w.total = 1 →
      (0 < (l.foldl (fun w s => Enhanced._learn_from_decision w s.1 s.2) w).stagewise ∧
       0 < (l.foldl (fun w s => Enhanced._learn_from_decision w s.1 s.2) w).livekit ∧
       0 < (l.foldl (fun w s => Enhanced._learn_from_decision w s.1 s.2) w).smartui) ∧
      (l.foldl (fun w s => Enhanced._learn_from_decision w s.1 s.2) w).total = 1 := by
    intro l
    induction l with
    | nil => intro w h1 h2 h3 ht; exact ⟨⟨h1, h2, h3⟩, ht⟩
    | cons s rest ih =>
      intro w h1 h2 h3 _
      have step := learn_step_preserves w s.1 s.2 h1 h2 h3
      exact ih _ step.1.1 step.1.2.1 step.1.2.2 step.2
  have h := aux steps Enhanced.initWeights (by norm_num [Enhanced.initWeights])
    (by norm_num [Enhanced.initWeights]) (by norm_num [Enhanced.initWeights])
    (by norm_num [Enhanced.initWeights, Enhanced.FrameworkWeights.total])
  rw [h.2]
  norm_num

section RecordLemmas

theorem update_rta_history (st : Analyzer.AnalyzerState) (i : Analyzer.UserInteraction)
    (now : ℤ) :
    (Analyzer._update_real_time_analysis st i now).1.interaction_history =
      st.interaction_history := by
  unfold Analyzer._update_real_time_analysis
  repeat' split
  all_goals rfl

theorem update_rta_malformed (st : Analyzer.AnalyzerState) (i : Analyzer.UserInteraction)
    (now : ℤ) (s : String) (hs : i.interaction_type = .malformed s) :
    (Analyzer._update_real_time_analysis st i now).2 = false := by
  unfold Analyzer._update_real_time_analysis
  rw [hs]
  repeat' split
  all_goals simp_all [Analyzer.Modality.valueE]

theorem record_interaction_history (cfg : Analyzer.AnalyzerConfig)
    (st : Analyzer.AnalyzerState) (i : Analyzer.UserInteraction) (now : ℤ) :
    (Analyzer.record_interaction cfg st i now).2.interaction_history =
      bumpAssoc st.interaction_history i.user_id (fun buf => dequeAppend 1000 buf i) [] := by
  unfold Analyzer.record_interaction
  dsimp only
  rcases hsess : lookupAssoc st.session_data i.session_id with _ | sd <;> dsimp only <;> split
  all_goals
    rename_i st3 heq
    have hh := congrArg (fun p => p.1.interaction_history) heq
    dsimp only at hh
    rw [update_rta_history] at hh
    dsimp only at hh
    exact hh.symm

end RecordLemmas

theorem fold_record_history (cfg : Analyzer.AnalyzerConfig) (uid : String) :
    ∀ (is : List Analyzer.UserInteraction) (st : Analyzer.AnalyzerState),
      (∀ i ∈ is, i.user_id = uid) →
      lookupD ((is.foldl (fun st i => (Analyzer.record_interaction cfg st i i.timestamp).2)
          st).interaction_history) uid [] =
        is.foldl (dequeAppend 1000) (lookupD st.interaction_history uid []) := by
  intro is
  induction is with
  | nil => intro st _; rfl
  | cons i rest ih =>
    intro st h
    rw [List.foldl_cons, List.foldl_cons,
      ih _ (fun j hj => h j (List.mem_cons_of_mem i hj))]
    have hu : i.user_id = uid := h i (List.mem_cons_self i rest)
    have hb : lookupD (Analyzer.record_interaction cfg st i i.timestamp).2.interaction_history
        uid [] = dequeAppend 1000 (lookupD st.interaction_history uid []) i := by
      rw [record_interaction_history, hu]
      simp [lookupD, lookupAssoc_bumpAssoc_self]
    rw [hb]

/-- C5: recording a sequence of interactions for a user leaves that user's ring
buffer holding exactly the most recent `min n 1000` of them in arrival order
(`deque(maxlen=1000)`): the buffer never exceeds the fixed capacity of 1000 and,
once `n` exceeds it, holds exactly the last 1000 recorded interactions. -/
theorem ring_buffer_keeps_last_capacity (cfg : Analyzer.AnalyzerConfig)
    (is : List Analyzer.UserInteraction) (uid : String)
    (h : ∀ i ∈ is, i.user_id = uid) :
    lookupD ((is.foldl (fun st i => (Analyzer.record_interaction cfg st i i.timestamp).2)
        Analyzer.emptyAnalyzerState).interaction_history) uid [] =
      is.drop (is.length - 1000) ∧
    (lookupD ((is.foldl (fun st i => (Analyzer.record_interaction cfg st i i.timestamp).2)
        Analyzer.emptyAnalyzerState).interaction_history) uid []).length =
      min is.length 1000 := by
  have e := fold_record_history cfg uid is Analyzer.emptyAnalyzerState h
  have he : lookupD Analyzer.emptyAnalyzerState.interaction_history uid []
      = ([] : List Analyzer.UserInteraction) := rfl
  rw [he] at e
  rw [e, foldl_dequeAppend]
  exact ⟨rfl, by rw [List.length_drop]; omega⟩

/-- Concrete interaction used by the C5 witness. -/
def c5i (n : ℤ) : Analyzer.UserInteraction :=
  ⟨"i", "u", "s", n, .valid .voice, none, none, "click", ⟨none⟩, true, 1, none⟩

theorem ring_buffer_keeps_last_capacity_witness :
    (∀ i ∈ [c5i 0, c5i 1, c5i 2], i.user_id = "u") ∧
    (lookupD (([c5i 0, c5i 1, c5i 2].foldl
        (fun st i => (Analyzer.record_interaction {} st i i.timestamp).2)
        Analyzer.emptyAnalyzerState).interaction_history) "u" [] =
      [c5i 0, c5i 1, c5i 2].drop ([c5i 0, c5i 1, c5i 2].length - 1000) ∧
    (lookupD (([c5i 0, c5i 1, c5i 2].foldl
        (fun st i => (Analyzer.record_interaction {} st i i.timestamp).2)
        Analyzer.emptyAnalyzerState).interaction_history) "u" []).length =
      min [c5i 0, c5i 1, c5i 2].length 1000) :=
  ⟨by decide, ring_buffer_keeps_last_capacity {} [c5i 0, c5i 1, c5i 2] "u" (by decide)⟩

/-- C1: the hybrid fusion of the strategy-engine outputs is a deterministic
function of the engine outputs themselves: feeding `fuseArrivals` the same tagged
engine results in any two completion orders (any permutation, with each engine
reporting once) yields the identical fused `DecisionResult`. -/
theorem fusion_order_invariant (l1 l2 : List (Enhanced.EngineId × Enhanced.DecisionResult))
    (now : ℤ) (hperm : l1.Perm l2) (hnd : (l1.map Prod.fst).Nodup) :
    Enhanced.fuseArrivals l1 now = Enhanced.fuseArrivals l2 now := by
  unfold Enhanced.fuseArrivals
  rw [lookupAssoc_perm hperm hnd, lookupAssoc_perm hperm hnd]

/-- Concrete rule-engine output used by the C1 witness. -/
def c1rule : Enhanced.DecisionResult :=
  ⟨"", .rule_based, 4/5, .livekit, [], "rule", .ruleMeta 1, 0⟩

/-- Concrete ML-engine output used by the C1 witness. -/
def c1ml : Enhanced.DecisionResult :=
  ⟨"", .ml_based, 3/4, .smartui, [], "ml", .mlMeta [] "1.0", 0⟩

theorem fusion_order_invariant_witness :
    ([(Enhanced.EngineId.rule, c1rule), (Enhanced.EngineId.ml, c1ml)].Perm
      [(Enhanced.EngineId.ml, c1ml), (Enhanced.EngineId.rule, c1rule)]) ∧
    (([(Enhanced.EngineId.rule, c1rule), (Enhanced.EngineId.ml, c1ml)].map Prod.fst).Nodup) ∧
    Enhanced.fuseArrivals [(Enhanced.EngineId.rule, c1rule), (Enhanced.EngineId.ml, c1ml)] 0 =
      Enhanced.fuseArrivals [(Enhanced.EngineId.ml, c1ml), (Enhanced.EngineId.rule, c1rule)] 0 :=
  ⟨List.Perm.swap (Enhanced.EngineId.ml, c1ml) (Enhanced.EngineId.rule, c1rule) [],
   by decide,
   fusion_order_invariant _ _ 0
     (List.Perm.swap (Enhanced.EngineId.ml, c1ml) (Enhanced.EngineId.rule, c1rule) [])
     (by decide)⟩

/-- Malformed interaction (its `interaction_type` is not an enum member) used by C9. -/
def c9bad : Analyzer.UserInteraction :=
  ⟨"i1", "u", "s", 0, .malformed "bogus", none, none, "tap", ⟨none⟩, true, 100, none⟩

/-- C9 counterexample: recording a malformed-modality interaction from the empty
store reports a failure (`False`), yet the user's ring buffer now contains the
malformed record, so existing state was modified on error, contrary to the claim. -/
theorem record_malformed_counterexample :
    (Analyzer.record_interaction {} Analyzer.emptyAnalyzerState c9bad 0).1 = false ∧
    lookupD (Analyzer.record_interaction {} Analyzer.emptyAnalyzerState c9bad 0).2.interaction_history
        "u" [] = [c9bad] ∧
    lookupD Analyzer.emptyAnalyzerState.interaction_history "u" [] = [] := by
  with_unfolding_all decide

/-- C9 (amended): recording an interaction whose modality is malformed reports a
validation failure to the caller (`record_interaction` returns `False`, no
exception escapes), but the store is *not* left unchanged: the malformed
interaction has already been appended to the user's ring buffer (and the session
list) when the failure is detected. -/
theorem record_malformed_reports_but_mutates (cfg : Analyzer.AnalyzerConfig)
    (st : Analyzer.AnalyzerState) (i : Analyzer.UserInteraction) (now : ℤ)
    (hm : ∃ s, i.interaction_type = .malformed s) :
    (Analyzer.record_interaction cfg st i now).1 = false ∧
    lookupD (Analyzer.record_interaction cfg st i now).2.interaction_history i.user_id [] =
      dequeAppend 1000 (lookupD st.interaction_history i.user_id []) i := by
  obtain ⟨s, hs⟩ := hm
  constructor
  · unfold Analyzer.record_interaction
    dsimp only
    split
    next st3 heq =>
      have hb := congrArg Prod.snd heq
      rw [update_rta_malformed _ _ _ s hs] at hb
      exact absurd hb.symm (by simp)
    next st3 heq => rfl
  · rw [record_interaction_history]
    simp [lookupD, lookupAssoc_bumpAssoc_self]

theorem record_malformed_reports_but_mutates_witness :
    (∃ s, c9bad.interaction_type = Analyzer.Modality.malformed s) ∧
    ((Analyzer.record_interaction {} Analyzer.emptyAnalyzerState c9bad 5).1 = false ∧
     lookupD (Analyzer.record_interaction {} Analyzer.emptyAnalyzerState c9bad
         5).2.interaction_history "u" [] =
       dequeAppend 1000 (lookupD Analyzer.emptyAnalyzerState.interaction_history "u" []) c9bad) :=
  ⟨⟨"bogus", rfl⟩,
   record_malformed_reports_but_mutates {} Analyzer.emptyAnalyzerState c9bad 5 ⟨"bogus", rfl⟩⟩

section ConfidenceLemmas

/-- `confidence` lies in the closed unit interval. -/
def unitConf (q : ℚ) : Prop := 0 ≤ q ∧ q ≤ 1

theorem rule_conf_unit (c : Enhanced.DecisionContext) (i : Enhanced.InputData) (now : ℤ) :
    unitConf (Enhanced._rule_based_decision c i now).confidence := by
  unfold Enhanced._rule_based_decision unitConf
  dsimp only
  split_ifs <;> exact ⟨by norm_num, by norm_num⟩

theorem ml_conf_unit (c : Enhanced.DecisionContext) (i : Enhanced.InputData) (r : ℚ)
    (now : ℤ) (h0 : 0 ≤ r) (h1 : r < 1) :
    unitConf (Enhanced._ml_based_decision c i r now).confidence := by
  unfold Enhanced._ml_based_decision unitConf
  dsimp only
  split_ifs <;> exact ⟨by linarith, by linarith⟩

theorem hybrid_combine_conf_unit (d1 d2 : Enhanced.DecisionResult) (now : ℤ)
    (h1 : unitConf d1.confidence) (h2 : unitConf d2.confidence) :
    unitConf (Enhanced._hybrid_combine d1 d2 now).confidence := by
  obtain ⟨h1a, h1b⟩ := h1
  obtain ⟨h2a, h2b⟩ := h2
  unfold Enhanced._hybrid_combine unitConf
  dsimp only
  constructor <;> nlinarith

theorem smartui_conf_unit (c : Enhanced.DecisionContext) (i : Enhanced.InputData)
    (now : ℤ) : unitConf (Enhanced._smartui_enhanced_decision c i now).confidence := by
  unfold Enhanced._smartui_enhanced_decision unitConf
  dsimp only
  split_ifs <;> exact ⟨by norm_num, by norm_num⟩

theorem heuristic_conf_unit (c : Enhanced.DecisionContext) (i : Enhanced.InputData)
    (now : ℤ) : unitConf (Enhanced._heuristic_decision c i now).confidence := by
  unfold Enhanced._heuristic_decision unitConf
  dsimp only
  split_ifs <;> exact ⟨by norm_num, by norm_num⟩

theorem make_decision_conf (cfg : Enhanced.EngineConfig) (st : Enhanced.EngineState)
    (ctx : Enhanced.DecisionContext) (input : Enhanced.InputData) (r : ℚ) (now : ℤ)
    (id : String) (h0 : 0 ≤ r) (h1 : r < 1) :
    ∀ res st', Enhanced.make_decision cfg st ctx input r now id = (.ok res, st') →
      unitConf res.confidence := by
  intro res st' h
  unfold Enhanced.make_decision Enhanced.makeDecisionWith Enhanced.defaultEngineFns at h
  dsimp only at h
  cases hcs : cfg.strategy <;> rw [hcs] at h <;> dsimp only at h <;>
    rw [Prod.mk.injEq] at h
  · obtain ⟨ha, _⟩ := h
    rw [Except.ok.injEq] at ha
    rw [← ha]
    dsimp only
    exact rule_conf_unit _ _ _
  · obtain ⟨ha, _⟩ := h
    rw [Except.ok.injEq] at ha
    rw [← ha]
    dsimp only
    exact ml_conf_unit _ _ _ _ h0 h1
  · obtain ⟨ha, _⟩ := h
    rw [Except.ok.injEq] at ha
    rw [← ha]
    dsimp only
    exact hybrid_combine_conf_unit _ _ _ (rule_conf_unit _ _ _) (ml_conf_unit _ _ _ _ h0 h1)
  · obtain ⟨ha, _⟩ := h
    rw [Except.ok.injEq] at ha
    rw [← ha]
    dsimp only
    exact heuristic_conf_unit _ _ _
  · obtain ⟨ha, _⟩ := h
    rw [Except.ok.injEq] at ha
    rw [← ha]
    dsimp only
    exact smartui_conf_unit _ _ _

theorem engine_rule_conf_unit (ie : Engine.InputData) :
    unitConf (Engine.ruleDecide ie).confidence := by
  unfold Engine.ruleDecide unitConf
  split_ifs <;> exact ⟨by norm_num, by norm_num⟩

theorem weighted_conf_sum_unit (ds : List Engine.DecisionResult)
    (hds : ∀ d ∈ ds, unitConf d.confidence) :
    unitConf ((ds.map (fun d =>
      (if (ds.map (fun d => d.confidence)).sum > 0 then
        d.confidence / (ds.map (fun d => d.confidence)).sum
      else 1 / (ds.length : ℚ)) * d.confidence)).sum) := by
  by_cases hT : (ds.map (fun d => d.confidence)).sum > 0
  · simp only [if_pos hT]
    constructor
    · apply List.sum_nonneg
      intro x hx
      obtain ⟨d, hd, rfl⟩ := List.mem_map.mp hx
      exact mul_nonneg (div_nonneg (hds d hd).1 (le_of_lt hT)) (hds d hd).1
    · have step : (ds.map (fun d =>
          d.confidence / (ds.map (fun d => d.confidence)).sum * d.confidence)).sum ≤
          (ds.map (fun d =>
            d.confidence / (ds.map (fun d => d.confidence)).sum)).sum := by
        apply List.sum_le_sum
        intro d hd
        exact mul_le_of_le_one_right (div_nonneg (hds d hd).1 (le_of_lt hT)) (hds d hd).2
      refine le_trans step ?_
      have e : (fun d : Engine.DecisionResult =>
          d.confidence / (ds.map (fun d => d.confidence)).sum) =
          fun d => d.confidence * ((ds.map (fun d => d.confidence)).sum)⁻¹ :=
        funext fun d => by rw [div_eq_mul_inv]
      rw [e, List.sum_map_mul_right, mul_inv_cancel₀ (ne_of_gt hT)]
  · simp only [if_neg hT]
    have hT0 : (ds.map (fun d => d.confidence)).sum = 0 := by
      have hge : 0 ≤ (ds.map (fun d => d.confidence)).sum := by
        apply List.sum_nonneg
        intro x hx
        obtain ⟨d, hd, rfl⟩ := List.mem_map.mp hx
        exact (hds d hd).1
      push_neg at hT
      linarith
    have e : (fun d : Engine.DecisionResult => 1 / (ds.length : ℚ) * d.confidence) =
        fun d => (1 / (ds.length : ℚ)) * d.confidence := rfl
    rw [e, List.sum_map_mul_left, hT0, mul_zero]
    exact ⟨le_refl 0, by norm_num⟩

theorem integrate_conf_unit (ds : List Engine.DecisionResult)
    (hds : ∀ d ∈ ds, unitConf d.confidence) :
    ∀ res, Engine._integrate_decisions ds = some res → unitConf res.confidence := by
  intro res h
  unfold Engine._integrate_decisions at h
  dsimp only at h
  rcases hp : pyMaxBy (fun d => d.confidence) ds with _ | primary
  · rw [hp] at h; exact absurd h (by simp)
  · rw [hp] at h
    rw [Option.some.injEq] at h
    rw [← h]
    exact weighted_conf_sum_unit ds hds

end ConfidenceLemmas

/-- C2: every `DecisionResult` carries a confidence in the closed interval [0,1]:
the one returned by `make_decision` under every strategy, the one produced by each
individual strategy method of the enhanced engine (with the ML random draw
`r ∈ [0,1)`), the ones produced by the three engines of `decision_engine.py`, and
the fused result of `_integrate_decisions` over in-range inputs. -/
theorem confidence_in_unit_interval
    (cfg : Enhanced.EngineConfig) (st : Enhanced.EngineState)
    (ctx : Enhanced.DecisionContext) (input : Enhanced.InputData)
    (r : ℚ) (now : ℤ) (id : String) (ie : Engine.InputData)
    (ds : List Engine.DecisionResult)
    (h0 : 0 ≤ r) (h1 : r < 1)
    (hds : ∀ d ∈ ds, unitConf d.confidence) :
    (∀ res st', Enhanced.make_decision cfg st ctx input r now id = (.ok res, st') →
      unitConf res.confidence) ∧
    unitConf (Enhanced._rule_based_decision ctx input now).confidence ∧
    unitConf (Enhanced._ml_based_decision ctx input r now).confidence ∧
    unitConf (Enhanced._hybrid_decision ctx input r now).confidence ∧
    unitConf (Enhanced._smartui_enhanced_decision ctx input now).confidence ∧
    unitConf (Enhanced._heuristic_decision ctx input now).confidence ∧
    unitConf (Engine.ruleDecide ie).confidence ∧
    unitConf (Engine.mlDecide ie).confidence ∧
    unitConf (Engine.heuristicDecide ie).confidence ∧
    (∀ res, Engine._integrate_decisions ds = some res → unitConf res.confidence) :=
  ⟨make_decision_conf cfg st ctx input r now id h0 h1,
   rule_conf_unit ctx input now,
   ml_conf_unit ctx input r now h0 h1,
   hybrid_combine_conf_unit _ _ now (rule_conf_unit ctx input now)
     (ml_conf_unit ctx input r now h0 h1),
   smartui_conf_unit ctx input now,
   heuristic_conf_unit ctx input now,
   engine_rule_conf_unit ie,
   ⟨by norm_num [Engine.mlDecide], by norm_num [Engine.mlDecide]⟩,
   ⟨by norm_num [Engine.heuristicDecide], by norm_num [Engine.heuristicDecide]⟩,
   integrate_conf_unit ds hds⟩

/-- Concrete decision context used by the C2 witness. -/
def c2ctx : Enhanced.DecisionContext :=
  ⟨"u", "s", 0, ⟨none, false⟩, none, [], none, none, none⟩

theorem confidence_in_unit_interval_witness :
    ((0 : ℚ) ≤ 0 ∧ (0 : ℚ) < 1 ∧ ∀ d ∈ ([] : List Engine.DecisionResult), unitConf d.confidence) ∧
    ((∀ res st', Enhanced.make_decision {} Enhanced.emptyEngineState c2ctx { input_type := "voice" } 0 0 "d" =
        (.ok res, st') → unitConf res.confidence) ∧
     unitConf (Enhanced._rule_based_decision c2ctx { input_type := "voice" } 0).confidence ∧
     unitConf (Enhanced._ml_based_decision c2ctx { input_type := "voice" } 0 0).confidence ∧
     unitConf (Enhanced._hybrid_decision c2ctx { input_type := "voice" } 0 0).confidence ∧
     unitConf (Enhanced._smartui_enhanced_decision c2ctx { input_type := "voice" } 0).confidence ∧
     unitConf (Enhanced._heuristic_decision c2ctx { input_type := "voice" } 0).confidence ∧
     unitConf (Engine.ruleDecide {}).confidence ∧
     unitConf (Engine.mlDecide {}).confidence ∧
     unitConf (Engine.heuristicDecide {}).confidence ∧
     (∀ res, Engine._integrate_decisions [] = some res → unitConf res.confidence)) :=
  ⟨⟨le_refl 0, by norm_num, fun d hd => absurd hd (List.not_mem_nil d)⟩,
   by
    have h := confidence_in_unit_interval {} Enhanced.emptyEngineState c2ctx { input_type := "voice" } 0 0 "d"
      {} [] (le_refl 0) (by norm_num) (fun d hd => absurd hd (List.not_mem_nil d))
    have hh : Enhanced._hybrid_decision c2ctx { input_type := "voice" } 0 0 =
        Enhanced._hybrid_combine (Enhanced._rule_based_decision c2ctx { input_type := "voice" } 0)
          (Enhanced._ml_based_decision c2ctx { input_type := "voice" } 0 0) 0 := rfl
    exact ⟨h.1, h.2.1, h.2.2.1, by rw [hh]; exact h.2.2.2.1, h.2.2.2.2⟩⟩

theorem pyMaxBy_some {α : Type} (score : α → ℚ) (l : List α) (h : l ≠ []) :
    ∃ p, pyMaxBy score l = some p := by
  cases l with
  | nil => exact absurd rfl h
  | cons x xs => exact ⟨_, rfl⟩

theorem integrate_eq (ds : List Engine.DecisionResult) (primary : Engine.DecisionResult)
    (hp : pyMaxBy (fun d => d.confidence) ds = some primary) :
    Engine._integrate_decisions ds = some
      ⟨primary.action_type, primary.target_element, primary.parameters,
       (ds.map (fun d =>
         (if (ds.map (fun d => d.confidence)).sum > 0 then
           d.confidence / (ds.map (fun d => d.confidence)).sum
         else 1 / (ds.length : ℚ)) * d.confidence)).sum,
       "Hybrid decision based on " ++ toString ds.length ++ " strategies",
       (stableSort (fun a b => decide (b.confidence ≤ a.confidence))
         (Engine.dedupAlts (ds.flatMap (fun d => d.alternatives)) [])).take 5,
       primary.execution_plan⟩ := by
  unfold Engine._integrate_decisions
  rw [hp]

/-- The two engine outputs of the spec's Scenario C (confidences 0.9 and 0.3). -/
def c4A : Engine.DecisionResult := ⟨"styleA", "elemA", [], 9/10, "A", [], []⟩

/-- See `c4A`. -/
def c4B : Engine.DecisionResult := ⟨"styleB", "elemB", [], 3/10, "B", [], []⟩

/-- C4 counterexample: integrating engine outputs with confidences 0.9 and 0.3
yields fused confidence 0.75 — the implemented weights are the normalized
confidences themselves (`Σ cᵢ² / Σ cᵢ`), not the claimed flat category weights,
whose formula would give (0.9+0.3)/2 = 0.6. -/
theorem integrate_confidence_counterexample :
    (Engine._integrate_decisions [c4A, c4B]).map (fun res => res.confidence) =
      some (3/4) ∧ ((3:ℚ)/4) ≠ 3/5 := by
  with_unfolding_all decide

/-- C4 (amended): whenever the confidences have a positive sum, the fused
confidence of `_integrate_decisions` equals `Σ confidenceᵢ² / Σ confidenceᵢ`
(each engine weighted by its own normalized confidence, not by category
weights), and the primary fields are copied from the first engine of maximal
confidence; in particular for confidences 0.9 and 0.3 the fused confidence is
0.75 (not 0.6) and the primary result is the 0.9 engine's. -/
theorem integrate_confidence_formula (ds : List Engine.DecisionResult)
    (hne : ds ≠ []) (ht : 0 < (ds.map (fun d => d.confidence)).sum) :
    ∃ res, Engine._integrate_decisions ds = some res ∧
      res.confidence = (ds.map (fun d => d.confidence * d.confidence)).sum /
        (ds.map (fun d => d.confidence)).sum ∧
      ∀ p, pyMaxBy (fun d => d.confidence) ds = some p →
        res.action_type = p.action_type ∧ res.target_element = p.target_element ∧
        res.parameters = p.parameters ∧ res.execution_plan = p.execution_plan := by
  obtain ⟨primary, hp⟩ := pyMaxBy_some (fun d => d.confidence) ds hne
  refine ⟨_, integrate_eq ds primary hp, ?_, ?_⟩
  · dsimp only
    simp only [if_pos ht]
    have e : (fun d : Engine.DecisionResult =>
        d.confidence / (ds.map (fun d => d.confidence)).sum * d.confidence) =
        fun d => (d.confidence * d.confidence) *
          ((ds.map (fun d => d.confidence)).sum)⁻¹ :=
      funext fun d => by rw [div_eq_mul_inv]; ring
    rw [e, List.sum_map_mul_right, ← div_eq_mul_inv]
  · intro p hp'
    rw [hp] at hp'
    cases hp'
    exact ⟨rfl, rfl, rfl, rfl⟩

theorem integrate_confidence_formula_witness :
    (([c4A, c4B] : List Engine.DecisionResult) ≠ [] ∧
      (0:ℚ) < (([c4A, c4B] : List Engine.DecisionResult).map (fun d => d.confidence)).sum) ∧
    (∃ res, Engine._integrate_decisions [c4A, c4B] = some res ∧
      res.confidence = (([c4A, c4B] : List Engine.DecisionResult).map
          (fun d => d.confidence * d.confidence)).sum /
        (([c4A, c4B] : List Engine.DecisionResult).map (fun d => d.confidence)).sum ∧
      ∀ p, pyMaxBy (fun d => d.confidence) [c4A, c4B] = some p →
        res.action_type = p.action_type ∧ res.target_element = p.target_element ∧
        res.parameters = p.parameters ∧ res.execution_plan = p.execution_plan) :=
  ⟨⟨by simp, by with_unfolding_all decide⟩,
   integrate_confidence_formula [c4A, c4B] (by simp) (by with_unfolding_all decide)⟩

theorem get_or_create_history (st : Analyzer.AnalyzerState) (uid : String) (now : ℤ) :
    (Analyzer.get_or_create_user_profile st uid now).2.interaction_history =
      st.interaction_history := by
  unfold Analyzer.get_or_create_user_profile
  split <;> rfl

theorem recent_depends_history (cfg : Analyzer.AnalyzerConfig)
    (st st' : Analyzer.AnalyzerState) (uid : String) (now : ℤ)
    (h : st.interaction_history = st'.interaction_history) :
    Analyzer._get_recent_interactions cfg st uid now =
      Analyzer._get_recent_interactions cfg st' uid now := by
  unfold Analyzer._get_recent_interactions
  rw [h]

theorem analyzeCore_default (cfg : Analyzer.AnalyzerConfig)
    (dets : List (String × Analyzer.Detector)) (st : Analyzer.AnalyzerState)
    (uid : String) (ctx : Option String) (now : ℤ)
    (hwin : (Analyzer._get_recent_interactions cfg st uid now).length <
      cfg.min_interactions_for_analysis) :
    Analyzer.analyzeCore cfg dets st uid ctx now =
      (.ok (Analyzer._get_default_analysis
          (Analyzer.get_or_create_user_profile st uid now).1 now),
       (Analyzer.get_or_create_user_profile st uid now).2, 0) := by
  have hwin' : (Analyzer._get_recent_interactions cfg
      (Analyzer.get_or_create_user_profile st uid now).2 uid now).length <
      cfg.min_interactions_for_analysis := by
    rw [recent_depends_history cfg _ st uid now (get_or_create_history st uid now)]
    exact hwin
  unfold Analyzer.analyzeCore
  dsimp only
  rw [if_pos hwin']

/-- C7: when the user's recent window holds fewer than the minimum sample
threshold of interactions (and no fresh cache entry short-circuits the call),
`analyze_user_behavior` returns the fixed default insight — overall confidence
0.3, `user_type = "new_user"`, recommendations `onboarding_assistance` and
`usage_tracking` — and runs zero pattern detectors. -/
theorem analyze_default_new_user (cfg : Analyzer.AnalyzerConfig)
    (st : Analyzer.AnalyzerState) (uid : String) (ctx : Option String) (now : ℤ)
    (hmiss : ∀ e, lookupAssoc st.analysis_cache (Analyzer.cache_key uid ctx) = some e →
      ¬ (now - e.timestamp < cfg.cache_ttl))
    (hwin : (Analyzer._get_recent_interactions cfg st uid now).length <
      cfg.min_interactions_for_analysis) :
    ∃ a st1, Analyzer.analyze_user_behavior cfg st uid ctx now = (.ok a, st1, 0) ∧
      a.overall_confidence = 3/10 ∧ a.user_type = "new_user" ∧
      a.recommendations = ["onboarding_assistance", "usage_tracking"] ∧
      a.insights = .insufficient := by
  have hcore := analyzeCore_default cfg Analyzer.pattern_detectors st uid ctx now hwin
  refine ⟨Analyzer._get_default_analysis
      (Analyzer.get_or_create_user_profile st uid now).1 now,
    (Analyzer.get_or_create_user_profile st uid now).2, ?_, rfl, rfl, rfl, rfl⟩
  unfold Analyzer.analyze_user_behavior Analyzer.analyzeWith
  dsimp only
  rcases hc : lookupAssoc st.analysis_cache (Analyzer.cache_key uid ctx) with _ | entry
  · exact hcore
  · dsimp only
    rw [if_neg (hmiss entry hc)]
    exact hcore

theorem analyze_default_new_user_witness :
    ((∀ e, lookupAssoc Analyzer.emptyAnalyzerState.analysis_cache
        (Analyzer.cache_key "u" none) = some e →
      ¬ ((0:ℤ) - e.timestamp < ({} : Analyzer.AnalyzerConfig).cache_ttl)) ∧
     (Analyzer._get_recent_interactions {} Analyzer.emptyAnalyzerState "u" 0).length <
      ({} : Analyzer.AnalyzerConfig).min_interactions_for_analysis) ∧
    (∃ a st1, Analyzer.analyze_user_behavior {} Analyzer.emptyAnalyzerState "u" none 0 =
        (.ok a, st1, 0) ∧
      a.overall_confidence = 3/10 ∧ a.user_type = "new_user" ∧
      a.recommendations = ["onboarding_assistance", "usage_tracking"] ∧
      a.insights = .insufficient) :=
  ⟨⟨fun e h => absurd h (by simp [lookupAssoc, Analyzer.emptyAnalyzerState]), by decide⟩,
   analyze_default_new_user {} Analyzer.emptyAnalyzerState "u" none 0
     (fun e h => absurd h (by simp [lookupAssoc, Analyzer.emptyAnalyzerState])) (by decide)⟩

section ErrorContainment

/-- A detector that raises (models an exception inside a pattern detector). -/
def failingDetector (msg : String) : Analyzer.Detector := fun _ _ _ _ _ => .error msg

/-- A detector that returns the analyzer's failure fallback outcome directly. -/
def zeroDetector : Analyzer.Detector := fun _ _ _ _ _ => .ok ⟨0, .empty⟩

/-- Replace the detectors selected by `bad` with `d`. -/
def substOn (dets : List (String × Analyzer.Detector)) (bad : String → Bool)
    (d : Analyzer.Detector) : List (String × Analyzer.Detector) :=
  dets.map (fun p => (p.1, if bad p.1 then d else p.2))

theorem substOn_results_eq (dets : List (String × Analyzer.Detector)) (bad : String → Bool)
    (msg : String) (uid : String) (recent : List Analyzer.UserInteraction)
    (profile : Analyzer.UserProfile) (ctx : Option String) (now : ℤ) :
    (substOn dets bad (failingDetector msg)).map (fun d =>
      (d.1, match d.2 uid recent profile ctx now with
            | .ok r => r
            | .error _ => (⟨0, .empty⟩ : Analyzer.DetOut))) =
    (substOn dets bad zeroDetector).map (fun d =>
      (d.1, match d.2 uid recent profile ctx now with
            | .ok r => r
            | .error _ => (⟨0, .empty⟩ : Analyzer.DetOut))) := by
  unfold substOn
  rw [List.map_map, List.map_map]
  apply List.map_congr_left
  intro p _
  by_cases hb : bad p.1 <;> simp [hb, failingDetector, zeroDetector]

theorem substOn_core_eq (cfg : Analyzer.AnalyzerConfig)
    (dets : List (String × Analyzer.Detector)) (bad : String → Bool) (msg : String)
    (st : Analyzer.AnalyzerState) (uid : String) (ctx : Option String) (now : ℤ) :
    Analyzer.analyzeCore cfg (substOn dets bad (failingDetector msg)) st uid ctx now =
    Analyzer.analyzeCore cfg (substOn dets bad zeroDetector) st uid ctx now := by
  unfold Analyzer.analyzeCore
  dsimp only
  split_ifs with hw
  · rfl
  · rw [substOn_results_eq]
    rw [show (substOn dets bad (failingDetector msg)).length =
        (substOn dets bad zeroDetector).length by simp [substOn]]

theorem substOn_analyze_eq (cfg : Analyzer.AnalyzerConfig)
    (dets : List (String × Analyzer.Detector)) (bad : String → Bool) (msg : String)
    (st : Analyzer.AnalyzerState) (uid : String) (ctx : Option String) (now : ℤ) :
    Analyzer.analyzeWith cfg (substOn dets bad (failingDetector msg)) st uid ctx now =
    Analyzer.analyzeWith cfg (substOn dets bad zeroDetector) st uid ctx now := by
  unfold Analyzer.analyzeWith
  dsimp only
  cases hl : lookupAssoc st.analysis_cache (Analyzer.cache_key uid ctx) with
  | none => exact substOn_core_eq cfg dets bad msg st uid ctx now
  | some entry =>
    dsimp only
    split_ifs with hf
    · rfl
    · exact substOn_core_eq cfg dets bad msg st uid ctx now

theorem lookupAssoc_mem {κ α : Type} [DecidableEq κ] {l : List (κ × α)} {k : κ} {v : α}
    (h : lookupAssoc l k = some v) : (k, v) ∈ l := by
  unfold lookupAssoc at h
  rcases hf : l.find? (fun p => decide (p.1 = k)) with _ | p
  · rw [hf] at h; exact absurd h (by simp)
  · rw [hf] at h
    have hm := List.mem_of_find?_eq_some hf
    have hp := List.find?_some hf
    obtain ⟨pk, pv⟩ := p
    simp only [Option.some.injEq] at h
    simp only [decide_eq_true_eq] at hp
    subst hp
    subst h
    exact hm

theorem renderKeys_keys {α : Type} (l : List (Analyzer.Modality × α)) :
    ∀ out : List (String × α), Analyzer.renderKeys l = .ok out →
      ∀ q ∈ out, ∃ t : Analyzer.InteractionType, q.1 = t.value := by
  induction l with
  | nil =>
    intro out h q hq
    unfold Analyzer.renderKeys at h
    rw [List.mapM_nil] at h
    simp only [pure, Except.pure, Except.ok.injEq] at h
    subst h
    exact absurd hq (List.not_mem_nil q)
  | cons p rest ih =>
    intro out h q hq
    unfold Analyzer.renderKeys at h
    rw [List.mapM_cons] at h
    rcases hv : p.1.valueE with e | v
    · rw [show (match p.1.valueE with
          | .ok v => Except.ok (v, p.2)
          | .error e => Except.error e) = (Except.error e : Except String (String × α)) by
            rw [hv]] at h
      exact absurd h (by simp [Bind.bind, Except.bind])
    · rw [show (match p.1.valueE with
          | .ok v => Except.ok (v, p.2)
          | .error e => Except.error e) = (Except.ok (v, p.2) : Except String (String × α)) by
            rw [hv]] at h
      rcases hr : List.mapM (fun p : Analyzer.Modality × α =>
          (match p.1.valueE with
            | .ok v => Except.ok (v, p.2)
            | .error e => Except.error e : Except String (String × α))) rest with e' | bs
      · rw [hr] at h
        exact absurd h (by simp [Bind.bind, Except.bind])
      · rw [hr] at h
        simp only [Bind.bind, Except.bind, pure, Except.pure, Except.ok.injEq] at h
        subst h
        rcases List.mem_cons.mp hq with hq1 | hq2
        · subst hq1
          cases hm : p.1 with
          | valid t =>
            refine ⟨t, ?_⟩
            rw [hm] at hv
            simp [Analyzer.Modality.valueE] at hv
            rw [← hv]
          | malformed s => rw [hm] at hv; exact absurd hv (by simp [Analyzer.Modality.valueE])
        · exact ih bs hr q hq2

theorem mapM_interactionTypeOf_ok (keys : List String)
    (h : ∀ k ∈ keys, ∃ t : Analyzer.InteractionType, k = t.value) :
    ∃ ms, keys.mapM Analyzer.interactionTypeOf = .ok ms := by
  induction keys with
  | nil => exact ⟨[], rfl⟩
  | cons k rest ih =>
    obtain ⟨t, ht⟩ := h k (List.mem_cons_self k rest)
    obtain ⟨ms, hms⟩ := ih (fun x hx => h x (List.mem_cons_of_mem _ hx))
    refine ⟨t :: ms, ?_⟩
    rw [List.mapM_cons]
    have hk : Analyzer.interactionTypeOf k = .ok t := by subst ht; cases t <;> rfl
    rw [hk, hms]
    rfl

end ErrorContainment

section ErrorContainment2

theorem inputpref_scores_keys (uid : String) (win : List Analyzer.UserInteraction)
    (profile : Analyzer.UserProfile) (ctx : Option String) (now : ℤ)
    (out : Analyzer.DetOut)
    (h : Analyzer._detect_input_preference uid win profile ctx now = .ok out) :
    ∀ k ∈ out.data.get_preference_scores.map Prod.fst,
      ∃ t : Analyzer.InteractionType, k = t.value := by
  unfold Analyzer._detect_input_preference at h
  dsimp only at h
  split_ifs at h with he
  · rw [Except.ok.injEq] at h
    subst h
    intro k hk
    exact absurd hk (by simp [Analyzer.DetData.get_preference_scores])
  · split at h
    next e heq => exact absurd h (by simp)
    next scores heq =>
      split at h
      next rates dist heq2 heq3 =>
        split at h
        all_goals
          rw [Except.ok.injEq] at h
          subst h
          intro k hk
          simp only [Analyzer.DetData.get_preference_scores, List.mem_map] at hk
          obtain ⟨q, hq, rfl⟩ := hk
          exact renderKeys_keys _ scores heq q hq
      next e _ _ => exact absurd h (by simp)
      next e _ _ => exact absurd h (by simp)

theorem update_profile_ok (profile0 : Analyzer.UserProfile) (analysis : Analyzer.Analysis)
    (now : ℤ)
    (hip : ∀ entries d, analysis.insights = .results entries →
      lookupAssoc entries "input_preference" = some d →
      ∃ ms, (d.get_preference_scores.map Prod.fst).mapM Analyzer.interactionTypeOf = .ok ms) :
    ∃ p, Analyzer._update_user_profile profile0 analysis now = .ok p := by
  unfold Analyzer._update_user_profile
  cases hins : analysis.insights with
  | insufficient => exact ⟨_, rfl⟩
  | results entries =>
    dsimp only
    cases hd : lookupAssoc entries "input_preference" with
    | none => exact ⟨_, rfl⟩
    | some d =>
      obtain ⟨ms, hms⟩ := hip entries d hins hd
      dsimp only
      rw [hms]
      exact ⟨_, rfl⟩

theorem update_after_synthesize_ok (cfg : Analyzer.AnalyzerConfig)
    (rs : List (String × Analyzer.DetOut)) (profile profile0 : Analyzer.UserProfile)
    (ctx : Option String) (now : ℤ)
    (hip : ∀ q ∈ rs, q.1 = "input_preference" →
      ∀ k ∈ q.2.data.get_preference_scores.map Prod.fst,
        ∃ t : Analyzer.InteractionType, k = t.value) :
    ∃ p, Analyzer._update_user_profile profile0
      (Analyzer._synthesize_analysis cfg rs profile ctx now) now = .ok p := by
  apply update_profile_ok
  intro entries d hins hd
  have hshape : (Analyzer._synthesize_analysis cfg rs profile ctx now).insights =
      .results ((rs.filter
        (fun r => decide (r.2.confidence ≥ cfg.confidence_threshold))).map
        (fun r : String × Analyzer.DetOut => (r.1, r.2.data))) := rfl
  rw [hshape] at hins
  injection hins with hE
  rw [← hE] at hd
  have hmem := lookupAssoc_mem hd
  rw [List.mem_map] at hmem
  obtain ⟨r, hr, hrd⟩ := hmem
  rw [List.mem_filter] at hr
  have hname : r.1 = "input_preference" := congrArg Prod.fst hrd
  have hdata : r.2.data = d := congrArg Prod.snd hrd
  have hk := hip r hr.1 hname
  rw [hdata] at hk
  exact mapM_interactionTypeOf_ok _ hk

theorem pattern_results_ip_keys (uid : String) (recent : List Analyzer.UserInteraction)
    (profile : Analyzer.UserProfile) (ctx : Option String) (now : ℤ) :
    ∀ q ∈ Analyzer.pattern_detectors.map (fun d =>
        (d.1, match d.2 uid recent profile ctx now with
              | .ok r => r
              | .error _ => (⟨0, .empty⟩ : Analyzer.DetOut))),
      q.1 = "input_preference" →
      ∀ k ∈ q.2.data.get_preference_scores.map Prod.fst,
        ∃ t : Analyzer.InteractionType, k = t.value := by
  intro q hq hname
  rw [List.mem_map] at hq
  obtain ⟨p, hp, hpq⟩ := hq
  simp only [Analyzer.pattern_detectors, List.mem_cons, List.not_mem_nil, or_false] at hp
  rcases hp with hp | hp | hp | hp | hp
  · subst hp
    rw [← hpq]
    dsimp only
    rcases hdet : Analyzer._detect_input_preference uid recent profile ctx now with e | outp
    · intro k hk
      exact absurd hk (by simp [Analyzer.DetData.get_preference_scores])
    · exact inputpref_scores_keys uid recent profile ctx now outp hdet
  all_goals
    subst hp
    rw [← hpq] at hname
    simp at hname

theorem analyzeCore_total (cfg : Analyzer.AnalyzerConfig) (st : Analyzer.AnalyzerState)
    (uid : String) (ctx : Option String) (now : ℤ) :
    ∃ a st1 k, Analyzer.analyzeCore cfg Analyzer.pattern_detectors st uid ctx now =
      (.ok a, st1, k) := by
  unfold Analyzer.analyzeCore
  dsimp only
  split_ifs with hw
  · exact ⟨_, _, _, rfl⟩
  · obtain ⟨p, hp⟩ := update_after_synthesize_ok cfg
      (Analyzer.pattern_detectors.map (fun d =>
        (d.1, match d.2 uid (Analyzer._get_recent_interactions cfg
            (Analyzer.get_or_create_user_profile st uid now).2 uid now)
            (Analyzer.get_or_create_user_profile st uid now).1 ctx now with
              | .ok r => r
              | .error _ => (⟨0, .empty⟩ : Analyzer.DetOut))))
      (Analyzer.get_or_create_user_profile st uid now).1
      (Analyzer.get_or_create_user_profile st uid now).1 ctx now
      (pattern_results_ip_keys uid _ _ ctx now)
    rw [hp]
    exact ⟨_, _, _, rfl⟩

theorem analyze_total (cfg : Analyzer.AnalyzerConfig) (st : Analyzer.AnalyzerState)
    (uid : String) (ctx : Option String) (now : ℤ)
    (hcache : ∀ e, lookupAssoc st.analysis_cache (Analyzer.cache_key uid ctx) = some e →
      now - e.timestamp < cfg.cache_ttl → ∃ a, e.value = .analysis a) :
    ∃ a st1 k, Analyzer.analyze_user_behavior cfg st uid ctx now = (.ok a, st1, k) := by
  unfold Analyzer.analyze_user_behavior Analyzer.analyzeWith
  dsimp only
  cases hl : lookupAssoc st.analysis_cache (Analyzer.cache_key uid ctx) with
  | none => exact analyzeCore_total cfg st uid ctx now
  | some entry =>
    dsimp only
    split_ifs with hf
    · obtain ⟨a, ha⟩ := hcache entry hl hf
      rw [ha]
      exact ⟨a, st, 0, rfl⟩
    · exact analyzeCore_total cfg st uid ctx now

end ErrorContainment2

/-- Strategy methods that all raise, modelling an exception inside an engine. -/
def c8failFns : Enhanced.EngineFns :=
  ⟨fun _ _ _ => .error "boom", fun _ _ _ _ => .error "boom",
   fun _ _ _ => .error "boom", fun _ _ _ => .error "boom"⟩

/-- Concrete context used by the C8 counterexample and witness. -/
def c8ctx : Enhanced.DecisionContext :=
  ⟨"u", "s", 0, ⟨none, false⟩, none, [], none, none, none⟩

/-- C8 counterexample: `make_decision` wraps no `try/except` around the strategy
calls, so an exception raised inside a strategy engine escapes the fusion entry
point to the caller instead of being mapped to a zero-confidence contribution. -/
theorem engine_exception_escapes_counterexample :
    (Enhanced.makeDecisionWith c8failFns {} Enhanced.emptyEngineState c8ctx
      { input_type := "voice" } 0 0 "d").1 = .error "boom" := rfl

theorem make_decision_error_propagates (cfg : Enhanced.EngineConfig)
    (st : Enhanced.EngineState) (ctx : Enhanced.DecisionContext)
    (input : Enhanced.InputData) (r : ℚ) (now : ℤ) (id msg : String)
    (hs : cfg.strategy = .rule_based) :
    (Enhanced.makeDecisionWith
      { Enhanced.defaultEngineFns with rule := fun _ _ _ => .error msg }
      cfg st ctx input r now id).1 = .error msg := by
  unfold Enhanced.makeDecisionWith
  rw [hs]

/-- C8 (amended): no exception raised inside one of the five pattern detectors
escapes `analyze_user_behavior` — a raising detector behaves exactly as one
returning the fallback output with confidence 0 and empty data, and the analyzer
entry point always returns a result (whenever the fresh cache entry at the key,
if any, is an analysis entry) — but the fusion entry point does *not* contain
engine failures: `make_decision` has no handler, so a raising strategy engine
propagates its exception to the caller instead of contributing confidence 0. -/
theorem error_containment_amended :
    (∀ (cfg : Analyzer.AnalyzerConfig) (dets : List (String × Analyzer.Detector))
      (bad : String → Bool) (msg : String) (st : Analyzer.AnalyzerState)
      (uid : String) (ctx : Option String) (now : ℤ),
      Analyzer.analyzeWith cfg (substOn dets bad (failingDetector msg)) st uid ctx now =
        Analyzer.analyzeWith cfg (substOn dets bad zeroDetector) st uid ctx now) ∧
    (∀ (cfg : Analyzer.AnalyzerConfig) (st : Analyzer.AnalyzerState) (uid : String)
      (ctx : Option String) (now : ℤ),
      (∀ e, lookupAssoc st.analysis_cache (Analyzer.cache_key uid ctx) = some e →
        now - e.timestamp < cfg.cache_ttl → ∃ a, e.value = .analysis a) →
      ∃ a st1 k, Analyzer.analyze_user_behavior cfg st uid ctx now = (.ok a, st1, k)) ∧
    (∀ (cfg : Enhanced.EngineConfig) (st : Enhanced.EngineState)
      (ctx : Enhanced.DecisionContext) (input : Enhanced.InputData) (r : ℚ) (now : ℤ)
      (id msg : String), cfg.strategy = .rule_based →
      (Enhanced.makeDecisionWith
        { Enhanced.defaultEngineFns with rule := fun _ _ _ => .error msg }
        cfg st ctx input r now id).1 = .error msg) :=
  ⟨substOn_analyze_eq, analyze_total, make_decision_error_propagates⟩

theorem error_containment_amended_witness :
    (Analyzer.analyzeWith {} (substOn Analyzer.pattern_detectors (fun _ => true)
        (failingDetector "boom")) Analyzer.emptyAnalyzerState "u" none 0 =
      Analyzer.analyzeWith {} (substOn Analyzer.pattern_detectors (fun _ => true)
        zeroDetector) Analyzer.emptyAnalyzerState "u" none 0) ∧
    (∃ a st1 k, Analyzer.analyze_user_behavior {} Analyzer.emptyAnalyzerState "u" none 0 =
      (.ok a, st1, k)) ∧
    ((Enhanced.makeDecisionWith
        { Enhanced.defaultEngineFns with rule := fun _ _ _ => .error "boom" }
        { strategy := .rule_based } Enhanced.emptyEngineState c8ctx
        { input_type := "voice" } 0 0 "d").1 = .error "boom") :=
  ⟨error_containment_amended.1 {} Analyzer.pattern_detectors (fun _ => true) "boom"
      Analyzer.emptyAnalyzerState "u" none 0,
   error_containment_amended.2.1 {} Analyzer.emptyAnalyzerState "u" none 0
     (fun e h => absurd h (by simp [lookupAssoc, Analyzer.emptyAnalyzerState])),
   error_containment_amended.2.2 { strategy := .rule_based } Enhanced.emptyEngineState
     c8ctx { input_type := "voice" } 0 0 "d" "boom" rfl⟩

/-- C6: two `analyze_user_behavior` calls for the same user and context, where the
first call finds no fresh cache entry, analyzes a window of at least the minimum
sample size and succeeds, and the second call happens before the first call's
cache entry reaches the TTL age, return identical analysis payloads; the second
call runs zero pattern detectors and leaves the state unchanged. -/
theorem analyze_cached_idempotent (cfg : Analyzer.AnalyzerConfig)
    (st : Analyzer.AnalyzerState) (uid : String) (ctx : Option String) (t0 t1 : ℤ)
    (a1 : Analyzer.Analysis) (st1 : Analyzer.AnalyzerState) (k : Nat)
    (hmiss : ∀ e, lookupAssoc st.analysis_cache (Analyzer.cache_key uid ctx) = some e →
      ¬ (t0 - e.timestamp < cfg.cache_ttl))
    (hwin : ¬ ((Analyzer._get_recent_interactions cfg st uid t0).length <
      cfg.min_interactions_for_analysis))
    (h1 : Analyzer.analyze_user_behavior cfg st uid ctx t0 = (.ok a1, st1, k))
    (hfresh : t1 - t0 < cfg.cache_ttl) :
    Analyzer.analyze_user_behavior cfg st1 uid ctx t1 = (.ok a1, st1, 0) := by
  have hwin' : ¬ ((Analyzer._get_recent_interactions cfg
      (Analyzer.get_or_create_user_profile st uid t0).2 uid t0).length <
      cfg.min_interactions_for_analysis) := by
    rw [recent_depends_history cfg _ st uid t0 (get_or_create_history st uid t0)]
    exact hwin
  have h1' : Analyzer.analyzeCore cfg Analyzer.pattern_detectors st uid ctx t0 =
      (.ok a1, st1, k) := by
    rw [← h1]
    unfold Analyzer.analyze_user_behavior Analyzer.analyzeWith
    dsimp only
    rcases hc : lookupAssoc st.analysis_cache (Analyzer.cache_key uid ctx) with _ | entry
    · rfl
    · dsimp only
      rw [if_neg (hmiss entry hc)]
  unfold Analyzer.analyzeCore at h1'
  dsimp only at h1'
  rw [if_neg hwin'] at h1'
  split at h1'
  next e heq =>
    have := congrArg Prod.fst h1'
    exact absurd this (by simp)
  next profile2 heq =>
    rw [Prod.mk.injEq, Prod.mk.injEq] at h1'
    obtain ⟨hA, hS, hK⟩ := h1'
    rw [Except.ok.injEq] at hA
    have hl1 : lookupAssoc st1.analysis_cache (Analyzer.cache_key uid ctx) =
        some ⟨t0, .analysis a1⟩ := by
      rw [← hS, ← hA]
      exact lookupAssoc_insertAssoc_self _ _ _
    unfold Analyzer.analyze_user_behavior Analyzer.analyzeWith
    dsimp only
    rw [hl1]
    dsimp only
    rw [if_pos hfresh]

/-- Analyzer configuration of the C6 witness (minimum sample size 1). -/
def c6cfg : Analyzer.AnalyzerConfig := { min_interactions_for_analysis := 1 }

/-- The single interaction in the C6 witness's window. -/
def c6i : Analyzer.UserInteraction :=
  ⟨"i1", "u", "s", 500, .valid .voice, none, none, "click", ⟨none⟩, true, 100, none⟩

/-- Initial state of the C6 witness. -/
def c6st0 : Analyzer.AnalyzerState := ⟨[], [("u", [c6i])], [], []⟩

/-- First analyzer call of the C6 witness. -/
def c6run : Except String Analyzer.Analysis × Analyzer.AnalyzerState × Nat :=
  Analyzer.analyze_user_behavior c6cfg c6st0 "u" none 1000

/-- The payload produced by the first call of the C6 witness. -/
def c6a1 : Analyzer.Analysis :=
  match c6run.1 with
  | .ok a => a
  | .error _ => Analyzer._get_default_analysis (Analyzer.newUserProfile "u" 0) 0

/-- The state after the first call of the C6 witness. -/
def c6st1 : Analyzer.AnalyzerState := c6run.2.1

set_option maxRecDepth 100000 in
set_option maxHeartbeats 1000000 in
theorem analyze_cached_idempotent_witness :
    ((∀ e, lookupAssoc c6st0.analysis_cache (Analyzer.cache_key "u" none) = some e →
        ¬ ((1000:ℤ) - e.timestamp < c6cfg.cache_ttl)) ∧
     ¬ ((Analyzer._get_recent_interactions c6cfg c6st0 "u" 1000).length <
        c6cfg.min_interactions_for_analysis) ∧
     Analyzer.analyze_user_behavior c6cfg c6st0 "u" none 1000 = (.ok c6a1, c6st1, 5) ∧
     ((1200:ℤ) - 1000 < c6cfg.cache_ttl)) ∧
    Analyzer.analyze_user_behavior c6cfg c6st1 "u" none 1200 = (.ok c6a1, c6st1, 0) :=
  ⟨⟨fun e h => absurd h (by simp [c6st0, lookupAssoc]),
    by decide,
    by with_unfolding_all decide,
    by decide⟩,
   analyze_cached_idempotent c6cfg c6st0 "u" none 1000 1200 c6a1 c6st1 5
     (fun e h => absurd h (by simp [c6st0, lookupAssoc]))
     (by decide)
     (by with_unfolding_all decide)
     (by decide)⟩

section DedupLemmas

variable {α : Type} [DecidableEq α]

theorem mem_dedupKeepFirst : ∀ (l : List α) (x : α), x ∈ dedupKeepFirst l ↔ x ∈ l := by
  intro l
  induction l using dedupKeepFirst.induct with
  | case1 => intro x; rw [dedupKeepFirst]
  | case2 y ys ih =>
    intro x
    rw [dedupKeepFirst]
    constructor
    · intro h
      rcases List.mem_cons.mp h with h | h
      · exact h ▸ List.mem_cons_self y ys
      · have := (ih x).mp h
        rw [List.mem_filter] at this
        exact List.mem_cons_of_mem y this.1
    · intro h
      rcases List.mem_cons.mp h with h | h
      · exact h ▸ List.mem_cons_self y (dedupKeepFirst (ys.filter (fun z => decide (z ≠ y))))
      · by_cases hxy : x = y
        · exact hxy ▸ List.mem_cons_self y _
        · refine List.mem_cons_of_mem y ((ih x).mpr ?_)
          rw [List.mem_filter]
          exact ⟨h, by simp [hxy]⟩

theorem nodup_dedupKeepFirst : ∀ l : List α, (dedupKeepFirst l).Nodup := by
  intro l
  induction l using dedupKeepFirst.induct with
  | case1 => rw [dedupKeepFirst]; exact List.nodup_nil
  | case2 y ys ih =>
    rw [dedupKeepFirst, List.nodup_cons]
    refine ⟨fun hy => ?_, ih⟩
    have := (mem_dedupKeepFirst _ y).mp hy
    rw [List.mem_filter] at this
    simp at this

theorem dedupKeepFirst_append_singleton (l : List α) (x : α) :
    dedupKeepFirst (l ++ [x]) =
      if x ∈ l then dedupKeepFirst l else dedupKeepFirst l ++ [x] := by
  induction l using dedupKeepFirst.induct with
  | case1 => simp [dedupKeepFirst]
  | case2 y ys ih =>
    rw [List.cons_append, dedupKeepFirst, List.filter_append]
    by_cases hxy : x = y
    · subst hxy
      rw [show List.filter (fun z => decide (z ≠ x)) [x] = [] by simp]
      rw [List.append_nil]
      simp [dedupKeepFirst, List.mem_cons]
    · rw [show List.filter (fun z => decide (z ≠ y)) [x] = [x] by simp [hxy]]
      rw [ih]
      have hmemf : x ∈ ys.filter (fun z => decide (z ≠ y)) ↔ x ∈ ys := by
        rw [List.mem_filter]
        simp [hxy]
      by_cases hx : x ∈ ys
      · rw [if_pos (hmemf.mpr hx), if_pos (List.mem_cons_of_mem y hx), dedupKeepFirst]
      · rw [if_neg (fun h => hx (hmemf.mp h)),
          if_neg (by simp [List.mem_cons, hxy, hx]), dedupKeepFirst]
        simp

end DedupLemmas

section BumpFoldLemmas

variable {κ β α : Type} [DecidableEq κ]

theorem bumpAssoc_keys (l : List (κ × α)) (k : κ) (f : α → α) (d : α) :
    (bumpAssoc l k f d).map Prod.fst =
      if k ∈ l.map Prod.fst then l.map Prod.fst else l.map Prod.fst ++ [k] := by
  induction l with
  | nil => simp [bumpAssoc]
  | cons p t ih =>
    by_cases hp : p.1 = k
    · simp [bumpAssoc, hp, List.mem_cons]
    · rw [show bumpAssoc (p :: t) k f d = p :: bumpAssoc t k f d by
        simp [bumpAssoc, hp]]
      rw [List.map_cons, ih, List.map_cons]
      by_cases hk : k ∈ t.map Prod.fst
      · rw [if_pos hk, if_pos (by exact List.mem_cons_of_mem _ hk)]
      · rw [if_neg hk, if_neg (by
          rw [List.mem_cons]
          rintro (h | h)
          · exact hp h.symm
          · exact hk h)]
        rfl

theorem bumpFold_keys (key : β → κ) (g : α → β → α) (d : α) :
    ∀ xs : List β,
      ((xs.foldl (fun m i => bumpAssoc m (key i) (fun a => g a i) d) []).map Prod.fst) =
        dedupKeepFirst (xs.map key) := by
  intro xs
  induction xs using List.reverseRecOn with
  | nil => simp [dedupKeepFirst]
  | append_singleton xs x ih =>
    rw [List.foldl_append, List.foldl_cons, List.foldl_nil, List.map_append,
      List.map_singleton, dedupKeepFirst_append_singleton, bumpAssoc_keys, ih]
    simp only [mem_dedupKeepFirst]

theorem bumpFold_lookup (key : β → κ) (g : α → β → α) (d : α) :
    ∀ (xs : List β) (k : κ),
      lookupAssoc (xs.foldl (fun m i => bumpAssoc m (key i) (fun a => g a i) d) []) k =
        if (xs.filter (fun i => decide (key i = k))).isEmpty then none
        else some ((xs.filter (fun i => decide (key i = k))).foldl g d) := by
  intro xs
  induction xs using List.reverseRecOn with
  | nil => intro k; rfl
  | append_singleton xs x ih =>
    intro k
    rw [List.foldl_append, List.foldl_cons, List.foldl_nil, List.filter_append]
    by_cases hx : key x = k
    · rw [hx, lookupAssoc_bumpAssoc_self]
      rw [show List.filter (fun i => decide (key i = k)) [x] = [x] by simp [hx]]
      have hne : ((xs.filter (fun i => decide (key i = k))) ++ [x]).isEmpty = false := by
        simp
      rw [hne]
      simp only [Bool.false_eq_true, if_false]
      rw [List.foldl_append, List.foldl_cons, List.foldl_nil]
      unfold lookupD
      rw [ih k]
      by_cases he : (xs.filter (fun i => decide (key i = k))).isEmpty = true
      · rw [if_pos he]
        rw [List.isEmpty_iff] at he
        rw [he, List.foldl_nil, Option.getD_none]
      · rw [if_neg he, Option.getD_some]
    · rw [lookupAssoc_bumpAssoc_ne _ _ _ _ _ hx]
      rw [show List.filter (fun i => decide (key i = k)) [x] = [] by simp [hx]]
      rw [List.append_nil]
      exact ih k

theorem assoc_reconstruct (l : List (κ × α)) (v : κ → α)
    (hnd : (l.map Prod.fst).Nodup)
    (hv : ∀ k ∈ l.map Prod.fst, lookupAssoc l k = some (v k)) :
    l = (l.map Prod.fst).map (fun k => (k, v k)) := by
  induction l with
  | nil => rfl
  | cons p t ih =>
    rw [List.map_cons, List.nodup_cons] at hnd
    rw [List.map_cons, List.map_cons]
    have hp : lookupAssoc (p :: t) p.1 = some (v p.1) :=
      hv p.1 (by rw [List.map_cons]; exact List.mem_cons_self _ _)
    rw [lookupAssoc_cons, if_pos rfl, Option.some.injEq] at hp
    have ht : ∀ k ∈ t.map Prod.fst, lookupAssoc t k = some (v k) := by
      intro k hk
      have := hv k (by rw [List.map_cons]; exact List.mem_cons_of_mem _ hk)
      rw [lookupAssoc_cons, if_neg (fun h => hnd.1 (by rw [h]; exact hk))] at this
      exact this
    rw [← ih hnd.2 ht, ← hp]

end BumpFoldLemmas

section InputPreferenceSpec

/-- Modelled from the spec: the rendered enum name of a modality (the detector only
renders well-formed members; malformed ones raise before rendering). -/
def specValue : Analyzer.Modality → String
  | .valid t => t.value
  | .malformed s => s

/-- Modelled from the spec: occurrence count of modality `m` in the window. -/
def modCount (interactions : List Analyzer.UserInteraction) (m : Analyzer.Modality) : Nat :=
  (interactions.filter (fun i => decide (i.interaction_type = m))).length

/-- Modelled from the spec: number of successful interactions with modality `m`. -/
def modSuccCount (interactions : List Analyzer.UserInteraction) (m : Analyzer.Modality) :
    Nat :=
  ((interactions.filter (fun i => decide (i.interaction_type = m))).filter
    (fun i => i.success)).length

/-- Modelled from the spec: score of a modality = (occurrence frequency in the
window) × (mean success rate of that modality). -/
def specScore (interactions : List Analyzer.UserInteraction) (m : Analyzer.Modality) : ℚ :=
  ((modCount interactions m : ℚ) / interactions.length) *
    ((modSuccCount interactions m : ℚ) / (modCount interactions m))

theorem foldl_add_one {β : Type} (xs : List β) : ∀ n : Nat,
    xs.foldl (fun a (_ : β) => a + 1) n = n + xs.length := by
  induction xs with
  | nil => intro n; simp
  | cons x t ih => intro n; rw [List.foldl_cons, ih]; simp; omega

theorem foldl_append_singleton {β γ : Type} (f : β → γ) (xs : List β) :
    ∀ init : List γ, xs.foldl (fun a i => a ++ [f i]) init = init ++ xs.map f := by
  induction xs with
  | nil => intro init; simp
  | cons x t ih => intro init; rw [List.foldl_cons, ih, List.map_cons]; simp

theorem sum_success_bits (xs : List Analyzer.UserInteraction) :
    (xs.map (fun i => if i.success then (1:ℚ) else 0)).sum =
      ((xs.filter (fun i => i.success)).length : ℚ) := by
  induction xs with
  | nil => simp
  | cons x t ih =>
    rw [List.map_cons, List.sum_cons, ih]
    by_cases hs : x.success <;> simp [hs, List.filter_cons] <;> ring

theorem renderKeys_ok_of_valid {α : Type} (l : List (Analyzer.Modality × α))
    (h : ∀ p ∈ l, ∃ t : Analyzer.InteractionType, p.1 = .valid t) :
    Analyzer.renderKeys l = .ok (l.map (fun p => (specValue p.1, p.2))) := by
  induction l with
  | nil => rfl
  | cons p t ih =>
    obtain ⟨tt, htt⟩ := h p (List.mem_cons_self p t)
    unfold Analyzer.renderKeys
    rw [List.mapM_cons]
    have hval : p.1.valueE = .ok (specValue p.1) := by
      rw [htt]; rfl
    rw [show (match p.1.valueE with
        | .ok v => Except.ok (v, p.2)
        | .error e => Except.error e : Except String (String × α)) =
        Except.ok (specValue p.1, p.2) from by rw [hval]]
    have iht := ih (fun q hq => h q (List.mem_cons_of_mem p hq))
    unfold Analyzer.renderKeys at iht
    rw [iht]
    rfl

theorem foldl_pyMax_spec {α : Type} (score : α → ℚ) :
    ∀ (xs : List α) (x : α),
      ∃ l1 l2,
        x :: xs = l1 ++
          (xs.foldl (fun best y => if score y > score best then y else best) x) :: l2 ∧
        (∀ z ∈ l1, score z <
          score (xs.foldl (fun best y => if score y > score best then y else best) x)) ∧
        (∀ z ∈ x :: xs, score z ≤
          score (xs.foldl (fun best y => if score y > score best then y else best) x)) := by
  intro xs
  induction xs with
  | nil =>
    intro x
    exact ⟨[], [], rfl, by simp, by simp⟩
  | cons y ys ih =>
    intro x
    rw [List.foldl_cons]
    by_cases hxy : score y > score x
    · rw [if_pos hxy]
      obtain ⟨l1, l2, hdec, hlt, hle⟩ := ih y
      refine ⟨x :: l1, l2, ?_, ?_, ?_⟩
      · rw [List.cons_append, ← hdec]
      · intro z hz
        rcases List.mem_cons.mp hz with hz | hz
        · subst hz
          exact lt_of_lt_of_le hxy (hle y (List.mem_cons_self y ys))
        · exact hlt z hz
      · intro z hz
        rcases List.mem_cons.mp hz with hz | hz
        · subst hz
          exact le_of_lt (lt_of_lt_of_le hxy (hle y (List.mem_cons_self y ys)))
        · exact hle z hz
    · rw [if_neg hxy]
      obtain ⟨l1, l2, hdec, hlt, hle⟩ := ih x
      cases l1 with
      | nil =>
        rw [List.nil_append] at hdec
        injection hdec with h1 h2
        refine ⟨[], y :: ys, ?_, by simp, ?_⟩
        · rw [List.nil_append, ← h1]
        · intro z hz
          rcases List.mem_cons.mp hz with hz | hz
          · rw [hz]
            exact hle x (List.mem_cons_self x ys)
          · rcases List.mem_cons.mp hz with hz | hz
            · rw [hz, ← h1]
              exact le_of_not_lt hxy
            · exact hle z (List.mem_cons_of_mem x hz)
      | cons a t =>
        rw [List.cons_append] at hdec
        injection hdec with h1 h2
        have hax : score x <
            score (ys.foldl (fun best y => if score y > score best then y else best) x) := by
          have haa := hlt a (List.mem_cons_self a t)
          rw [← h1] at haa
          exact haa
        refine ⟨x :: y :: t, l2, ?_, ?_, ?_⟩
        · rw [List.cons_append, List.cons_append, ← h2]
        · intro z hz
          rcases List.mem_cons.mp hz with hz | hz
          · rw [hz]; exact hax
          · rcases List.mem_cons.mp hz with hz | hz
            · rw [hz]
              exact lt_of_le_of_lt (le_of_not_lt hxy) hax
            · exact hlt z (List.mem_cons_of_mem a hz)
        · intro z hz
          rcases List.mem_cons.mp hz with hz | hz
          · rw [hz]; exact le_of_lt hax
          · rcases List.mem_cons.mp hz with hz | hz
            · rw [hz]
              exact le_trans (le_of_not_lt hxy) (le_of_lt hax)
            · exact hle z (List.mem_cons_of_mem x hz)

theorem pyMaxBy_first_max {α : Type} (score : α → ℚ) (l : List α) (m : α)
    (h : pyMaxBy score l = some m) :
    ∃ l1 l2, l = l1 ++ m :: l2 ∧ (∀ z ∈ l1, score z < score m) ∧
      ∀ z ∈ l, score z ≤ score m := by
  cases l with
  | nil => exact absurd h (by simp [pyMaxBy])
  | cons x xs =>
    have hm : m = xs.foldl (fun best y => if score y > score best then y else best) x := by
      have : pyMaxBy score (x :: xs) =
          some (xs.foldl (fun best y => if score y > score best then y else best) x) := rfl
      rw [this, Option.some.injEq] at h
      exact h.symm
    subst hm
    exact foldl_pyMax_spec score xs x

end InputPreferenceSpec

section InputPreferenceClaim

/-- The modalities occurring in a window, in first-occurrence order (the key
iteration order of the two `defaultdict`s built by `_detect_input_preference`). -/
def modKeys (interactions : List Analyzer.UserInteraction) : List Analyzer.Modality :=
  dedupKeepFirst (interactions.map (fun i => i.interaction_type))

/-- The success-bit list (`1 if interaction.success else 0`) accumulated for one
modality by `_detect_input_preference`. -/
def modBits (interactions : List Analyzer.UserInteraction) (m : Analyzer.Modality) :
    List ℚ :=
  (interactions.filter (fun i => decide (i.interaction_type = m))).map
    (fun i => if i.success then (1:ℚ) else 0)

theorem mem_modKeys (interactions : List Analyzer.UserInteraction)
    (m : Analyzer.Modality) :
    m ∈ modKeys interactions ↔ m ∈ interactions.map (fun i => i.interaction_type) := by
  unfold modKeys
  exact mem_dedupKeepFirst (interactions.map (fun i => i.interaction_type)) m

theorem lookupAssoc_map_self {κ α : Type} [DecidableEq κ] (keys : List κ) (v : κ → α)
    (k : κ) (hk : k ∈ keys) :
    lookupAssoc (keys.map (fun x => (x, v x))) k = some (v k) := by
  induction keys with
  | nil => exact absurd hk (List.not_mem_nil k)
  | cons a t ih =>
    rw [List.map_cons, lookupAssoc_cons]
    by_cases ha : a = k
    · rw [if_pos ha, ha]
    · rw [if_neg ha]
      exact ih (by
        rcases List.mem_cons.mp hk with h | h
        · exact absurd h.symm ha
        · exact h)

theorem filter_type_ne_empty (xs : List Analyzer.UserInteraction) (k : Analyzer.Modality)
    (h : k ∈ xs.map (fun i => i.interaction_type)) :
    (xs.filter (fun i => decide (i.interaction_type = k))).isEmpty = false := by
  obtain ⟨i, hi, hik⟩ := List.mem_map.mp h
  have hmem : i ∈ xs.filter (fun i => decide (i.interaction_type = k)) :=
    List.mem_filter.mpr ⟨hi, by simp [hik]⟩
  cases hf : xs.filter (fun i => decide (i.interaction_type = k)) with
  | nil => rw [hf] at hmem; exact absurd hmem (List.not_mem_nil i)
  | cons a t => rfl

theorem modBits_ne_empty (interactions : List Analyzer.UserInteraction)
    (m : Analyzer.Modality) (h : m ∈ modKeys interactions) :
    (modBits interactions m).isEmpty = false := by
  have hfe := filter_type_ne_empty interactions m
    ((mem_modKeys interactions m).mp h)
  unfold modBits
  cases hf : interactions.filter (fun i => decide (i.interaction_type = m)) with
  | nil => rw [hf] at hfe; exact absurd hfe (by simp)
  | cons a t => rfl

theorem qmean_modBits (interactions : List Analyzer.UserInteraction)
    (m : Analyzer.Modality) :
    qmean (modBits interactions m) =
      (modSuccCount interactions m : ℚ) / (modCount interactions m : ℚ) := by
  unfold qmean modBits
  rw [sum_success_bits, List.length_map]
  rfl

theorem inputCounts_eq (interactions : List Analyzer.UserInteraction) :
    interactions.foldl (fun m i => bumpAssoc m i.interaction_type (· + 1) 0) [] =
      (modKeys interactions).map (fun m => (m, modCount interactions m)) := by
  have hk : ((interactions.foldl (fun m i => bumpAssoc m i.interaction_type (· + 1) 0)
      []).map Prod.fst) = modKeys interactions :=
    bumpFold_keys (fun i => i.interaction_type) (fun a _ => a + 1) 0 interactions
  have hrec := assoc_reconstruct
      (interactions.foldl (fun m i => bumpAssoc m i.interaction_type (· + 1) 0) [])
      (fun m => modCount interactions m)
      (by rw [hk]; exact nodup_dedupKeepFirst _)
      (by
        intro k hkmem
        rw [hk] at hkmem
        have hfe : (interactions.filter
            (fun i => decide (i.interaction_type = k))).isEmpty = false :=
          filter_type_ne_empty interactions k
            ((mem_modKeys interactions k).mp hkmem)
        have hl := bumpFold_lookup (fun i : Analyzer.UserInteraction => i.interaction_type)
            (fun (a : Nat) (_ : Analyzer.UserInteraction) => a + 1) 0 interactions k
        rw [hl, hfe]
        simp only [Bool.false_eq_true, if_false]
        rw [foldl_add_one, Nat.zero_add]
        rfl)
  rw [hrec, hk]

theorem successRates_eq (interactions : List Analyzer.UserInteraction) :
    interactions.foldl (fun m i => bumpAssoc m i.interaction_type
        (· ++ [if i.success then (1:ℚ) else 0]) []) [] =
      (modKeys interactions).map (fun m => (m, modBits interactions m)) := by
  have hk : ((interactions.foldl (fun m i => bumpAssoc m i.interaction_type
      (· ++ [if i.success then (1:ℚ) else 0]) []) []).map Prod.fst) = modKeys interactions :=
    bumpFold_keys (fun i => i.interaction_type)
      (fun a i => a ++ [if i.success then (1:ℚ) else 0]) [] interactions
  have hrec := assoc_reconstruct
      (interactions.foldl (fun m i => bumpAssoc m i.interaction_type
        (· ++ [if i.success then (1:ℚ) else 0]) []) [])
      (fun m => modBits interactions m)
      (by rw [hk]; exact nodup_dedupKeepFirst _)
      (by
        intro k hkmem
        rw [hk] at hkmem
        have hfe : (interactions.filter
            (fun i => decide (i.interaction_type = k))).isEmpty = false :=
          filter_type_ne_empty interactions k
            ((mem_modKeys interactions k).mp hkmem)
        have hl := bumpFold_lookup (fun i : Analyzer.UserInteraction => i.interaction_type)
            (fun (a : List ℚ) (i : Analyzer.UserInteraction) =>
              a ++ [if i.success then (1:ℚ) else 0]) [] interactions k
        rw [hl, hfe]
        simp only [Bool.false_eq_true, if_false]
        rw [foldl_append_singleton, List.nil_append]
        rfl)
  rw [hrec, hk]

theorem scoresArg_eq (interactions : List Analyzer.UserInteraction) :
    ((modKeys interactions).map (fun m => (m, modCount interactions m))).map
      (fun p => (p.1, ((p.2 : ℚ) / (interactions.length : ℚ)) *
        (if (lookupD ((modKeys interactions).map
            (fun m => (m, modBits interactions m))) p.1 []).isEmpty then 0
         else qmean (lookupD ((modKeys interactions).map
            (fun m => (m, modBits interactions m))) p.1 [])))) =
      (modKeys interactions).map (fun m => (m, specScore interactions m)) := by
  rw [List.map_map]
  refine List.map_congr_left ?_
  intro m hm
  dsimp only [Function.comp]
  have hl : lookupD ((modKeys interactions).map
      (fun m => (m, modBits interactions m))) m [] = modBits interactions m := by
    unfold lookupD
    rw [lookupAssoc_map_self (modKeys interactions)
      (fun m => modBits interactions m) m hm]
    rfl
  rw [hl, modBits_ne_empty interactions m hm]
  simp only [Bool.false_eq_true, if_false]
  rw [qmean_modBits]
  rfl

theorem modKeys_ne_nil (interactions : List Analyzer.UserInteraction)
    (h : interactions ≠ []) : modKeys interactions ≠ [] := by
  cases interactions with
  | nil => exact absurd rfl h
  | cons a t =>
    unfold modKeys
    rw [List.map_cons, dedupKeepFirst]
    exact List.cons_ne_nil _ _

/-- C10 (amended): on a non-empty window of well-formed interactions, the
InputPreference detector scores every modality of the window as
(occurrence frequency) × (mean success rate) — keyed in first-occurrence order of
the window — and returns as primary preference the FIRST modality, in that
first-occurrence order, attaining the maximal score, with that maximal score as
its confidence.  Ties are broken by first occurrence in the window, not by the
enum declaration order. -/
theorem input_preference_first_occurrence
    (uid : String) (interactions : List Analyzer.UserInteraction)
    (profile : Analyzer.UserProfile) (ctx : Option String) (now : ℤ)
    (hne : interactions ≠ [])
    (hval : ∀ i ∈ interactions, ∃ t : Analyzer.InteractionType,
      i.interaction_type = Analyzer.Modality.valid t) :
    ∃ (p : String) (conf : ℚ) (scores : List (String × ℚ))
      (dist : List (String × Nat)) (rates : List (String × ℚ)),
      Analyzer._detect_input_preference uid interactions profile ctx now =
        .ok ⟨conf, .inputPref p scores dist rates⟩ ∧
      scores = (dedupKeepFirst (interactions.map (fun i => i.interaction_type))).map
        (fun m => (specValue m, specScore interactions m)) ∧
      (∀ q ∈ scores, q.2 ≤ conf) ∧
      ∃ l1 l2, scores = l1 ++ (p, conf) :: l2 ∧ ∀ q ∈ l1, q.2 < conf := by
  have hie : interactions.isEmpty = false := by
    cases interactions with
    | nil => exact absurd rfl hne
    | cons a t => rfl
  have hkval : ∀ m ∈ modKeys interactions,
      ∃ t : Analyzer.InteractionType, m = Analyzer.Modality.valid t := by
    intro m hm
    obtain ⟨i, hi, hit⟩ := List.mem_map.mp
      ((mem_modKeys interactions m).mp hm)
    obtain ⟨t, ht⟩ := hval i hi
    exact ⟨t, by rw [← hit, ht]⟩
  have hrenderS2 : Analyzer.renderKeys ((modKeys interactions).map
      (fun m => (m, specScore interactions m))) =
      .ok ((modKeys interactions).map
        (fun m => (specValue m, specScore interactions m))) := by
    rw [renderKeys_ok_of_valid _ (by
      intro p hp
      obtain ⟨m, hm, hpm⟩ := List.mem_map.mp hp
      obtain ⟨t, ht⟩ := hkval m hm
      refine ⟨t, ?_⟩
      rw [← hpm]
      exact ht), List.map_map]
    rfl
  have hrenderR2 : Analyzer.renderKeys (((modKeys interactions).map
      (fun m => (m, modBits interactions m))).map (fun p => (p.1, qmean p.2))) =
      .ok ((modKeys interactions).map
        (fun m => (specValue m, qmean (modBits interactions m)))) := by
    rw [renderKeys_ok_of_valid _ (by
      intro p hp
      obtain ⟨q, hq, hqp⟩ := List.mem_map.mp hp
      obtain ⟨m, hm, hmq⟩ := List.mem_map.mp hq
      obtain ⟨t, ht⟩ := hkval m hm
      refine ⟨t, ?_⟩
      rw [← hqp, ← hmq]
      exact ht), List.map_map, List.map_map]
    rfl
  have hrenderD2 : Analyzer.renderKeys ((modKeys interactions).map
      (fun m => (m, modCount interactions m))) =
      .ok ((modKeys interactions).map
        (fun m => (specValue m, modCount interactions m))) := by
    rw [renderKeys_ok_of_valid _ (by
      intro p hp
      obtain ⟨m, hm, hpm⟩ := List.mem_map.mp hp
      obtain ⟨t, ht⟩ := hkval m hm
      refine ⟨t, ?_⟩
      rw [← hpm]
      exact ht), List.map_map]
    rfl
  have hsne : (modKeys interactions).map
      (fun m => (specValue m, specScore interactions m)) ≠ [] := by
    cases hmk : modKeys interactions with
    | nil => exact absurd hmk (modKeys_ne_nil interactions hne)
    | cons a t => rw [List.map_cons]; exact List.cons_ne_nil _ _
  obtain ⟨best, hbest⟩ := pyMaxBy_some Prod.snd _ hsne
  have hdet : Analyzer._detect_input_preference uid interactions profile ctx now =
      .ok ⟨best.2, .inputPref best.1
        ((modKeys interactions).map (fun m => (specValue m, specScore interactions m)))
        ((modKeys interactions).map (fun m => (specValue m, modCount interactions m)))
        ((modKeys interactions).map
          (fun m => (specValue m, qmean (modBits interactions m))))⟩ := by
    unfold Analyzer._detect_input_preference
    rw [hie]
    simp only [Bool.false_eq_true, if_false]
    rw [inputCounts_eq, successRates_eq, scoresArg_eq, hrenderS2]
    dsimp only
    rw [hrenderR2, hrenderD2]
    dsimp only
    rw [hbest]
  obtain ⟨l1, l2, hsplit, hlt, hle⟩ := pyMaxBy_first_max Prod.snd _ best hbest
  exact ⟨best.1, best.2, _, _, _, hdet, rfl, hle, l1, l2,
    by rw [Prod.mk.eta]; exact hsplit, hlt⟩

/-- A successful touch interaction (the first of the C10 window). -/
def c10touch : Analyzer.UserInteraction :=
  ⟨"i1", "u", "s", 0, .valid .touch, none, none, "tap", ⟨none⟩, true, 100, none⟩

/-- A successful voice interaction (the second of the C10 window). -/
def c10voice : Analyzer.UserInteraction :=
  ⟨"i2", "u", "s", 1, .valid .voice, none, none, "say", ⟨none⟩, true, 100, none⟩

/-- The profile passed to the detector in the C10 theorems (never read by it). -/
def c10profile : Analyzer.UserProfile := Analyzer.newUserProfile "u" 0

/-- C10 (counterexample): on the window [touch success, voice success] both
modalities score (1/2)·1 = 1/2 — a tie — yet the detector returns primary
preference "touch" (the first-occurring modality of the window), not "voice" as
the claimed declaration-order tie-break (voice > visual > touch > keyboard >
mouse > gesture) would require. -/
theorem input_preference_tiebreak_counterexample :
    Analyzer._detect_input_preference "u" [c10touch, c10voice] c10profile none 0 =
      .ok ⟨1/2, .inputPref "touch" [("touch", 1/2), ("voice", 1/2)]
        [("touch", 1), ("voice", 1)] [("touch", 1), ("voice", 1)]⟩ ∧
    ("touch" : String) ≠ "voice" :=
  ⟨by with_unfolding_all decide, by decide⟩

/-- C10 (witness): the amended theorem applied at the concrete two-interaction
window of the counterexample. -/
theorem input_preference_first_occurrence_witness :
    (([c10touch, c10voice] : List Analyzer.UserInteraction) ≠ []) ∧
    (∀ i ∈ [c10touch, c10voice], ∃ t : Analyzer.InteractionType,
      i.interaction_type = Analyzer.Modality.valid t) ∧
    (∃ (p : String) (conf : ℚ) (scores : List (String × ℚ))
        (dist : List (String × Nat)) (rates : List (String × ℚ)),
      Analyzer._detect_input_preference "u" [c10touch, c10voice] c10profile none 0 =
        .ok ⟨conf, .inputPref p scores dist rates⟩ ∧
      scores = (dedupKeepFirst ([c10touch, c10voice].map
          (fun i => i.interaction_type))).map
        (fun m => (specValue m, specScore [c10touch, c10voice] m)) ∧
      (∀ q ∈ scores, q.2 ≤ conf) ∧
      ∃ l1 l2, scores = l1 ++ (p, conf) :: l2 ∧ ∀ q ∈ l1, q.2 < conf) :=
  ⟨by simp,
   by
    intro i hi
    rcases List.mem_cons.mp hi with h | h
    · exact ⟨.touch, by subst h; rfl⟩
    · rcases List.mem_cons.mp h with h | h
      · exact ⟨.voice, by subst h; rfl⟩
      · exact absurd h (List.not_mem_nil i),
   input_preference_first_occurrence "u" [c10touch, c10voice] c10profile none 0
     (by simp)
     (by
      intro i hi
      rcases List.mem_cons.mp hi with h | h
      · exact ⟨.touch, by subst h; rfl⟩
      · rcases List.mem_cons.mp h with h | h
        · exact ⟨.voice, by subst h; rfl⟩
        · exact absurd h (List.not_mem_nil i))⟩

end InputPreferenceClaim
